import Mathlib

/-!
# Verification of the client-events analytics pipeline

Shallow embedding of the staging / funnel / churn / inconsistency feature
derivation of the repository (files `b_staging/f_staging_events.py`,
`c_features/f_funnel_data.py`, `c_features/f_churn_data.py`,
`c_features/f_inconsistencies.py`).

Modelling conventions:
* A dataframe / SQL table is a `List` of typed rows, in scan order.
* Dates are integers (days since an arbitrary epoch); `julianday` differences
  of date-valued columns are exact integer day differences.
* Nullable columns are `Option`-typed.  SQL three-valued logic is embedded by
  making every `NULL`-involving comparison false (as it is under `WHERE`).
* `GROUP BY client_id` is embedded as iteration over the distinct client ids
  in first-appearance order (`dedupFirst`); the claims under study do not
  depend on the output ordering of groups, and SQL `ORDER BY` clauses that
  only affect presentation order are not modelled.
* The wall-clock instant `julianday('now')` is an explicit `now : Int`
  parameter.
* Python `str.title()` is modelled for ASCII letters (`titleCase`).
-/

/-- Keep the first occurrence of each element, dropping later duplicates
(the duplicate-elimination order used by `pandas` column union and the
deterministic group order we use for `GROUP BY`). -/
def dedupFirst {α : Type} [DecidableEq α] (l : List α) : List α :=
  l.reverse.dedup.reverse

theorem mem_dedupFirst {α : Type} [DecidableEq α] {l : List α} {a : α} :
    a ∈ dedupFirst l ↔ a ∈ l := by
  simp [dedupFirst]

theorem nodup_dedupFirst {α : Type} [DecidableEq α] (l : List α) :
    (dedupFirst l).Nodup := by
  unfold dedupFirst
  rw [List.nodup_reverse]
  exact l.reverse.nodup_dedup

/-- One step of Python `str.title()`: `prevAlpha` records whether the previous
character was a letter. -/
def titleStep (prevAlpha : Bool) (c : Char) : Bool × Char :=
  if c.isAlpha then (true, if prevAlpha then c.toLower else c.toUpper)
  else (false, c)

/-- Python `str.title()` restricted to ASCII: uppercase each letter that does
not follow a letter, lowercase the other letters. -/
def titleCase (s : String) : String :=
  ⟨(s.data.foldl (fun st c =>
      let r := titleStep st.1 c
      (r.1, st.2 ++ [r.2])) (false, [])).2⟩

/-- A raw input record (`RawEvent` of the spec): one row of the input CSV after
`validate_and_cast_schema` (dates and numeric ids already coerced, coercion
failures being `none`). -/
structure RawRow where
  record_id : Option Int
  client_id : Option Int
  event_type : String
  event_date : Option Int
  plan : Option String
  region : Option String
  marketing_channel : Option String
  sales_rep_id : Option Int
  source_system : Option String
deriving DecidableEq, Repr, Inhabited

/-- `StagingEventsProcessor.fill_missing_values`: `plan` is defaulted to
`'unknown'` and title-cased, `source_system` / `marketing_channel` default to
`'unknown'`, `sales_rep_id` defaults to `-1`. -/
def fill_missing_values (r : RawRow) : RawRow :=
  { r with
    plan := some (titleCase (r.plan.getD "unknown")),
    source_system := some (r.source_system.getD "unknown"),
    marketing_channel := some (r.marketing_channel.getD "unknown"),
    sales_rep_id := some (r.sales_rep_id.getD (-1)) }

/-- A row of the staging table (`StagedEvent` of the spec): `event_date` is
non-null and `event_rank` has been assigned. -/
structure StagedRow where
  record_id : Option Int
  client_id : Option Int
  event_type : String
  event_date : Int
  plan : Option String
  region : Option String
  marketing_channel : Option String
  sales_rep_id : Option Int
  source_system : Option String
  event_rank : Nat
deriving DecidableEq, Repr, Inhabited

/-- The `WHERE event_date IS NOT NULL` filter of `staging_sql`: keep the dated
rows, in input order, pairing each with its (now known non-null) date. -/
def keepDated (rows : List RawRow) : List (RawRow × Int) :=
  rows.filterMap (fun r => r.event_date.map (fun d => (r, d)))

/-- The strict ordering used by
`ROW_NUMBER() OVER (PARTITION BY client_id, event_type ORDER BY event_date)`:
position `q` precedes position `p` iff it lies in the same
(`client_id`, `event_type`) partition and either has a strictly earlier date,
or the same date and an earlier position (SQLite's stable scan-order
tie-break). -/
def lexLt (ks : List (RawRow × Int)) (q p : Nat) : Prop :=
  (ks.getD q default).1.client_id = (ks.getD p default).1.client_id ∧
  (ks.getD q default).1.event_type = (ks.getD p default).1.event_type ∧
  ((ks.getD q default).2 < (ks.getD p default).2 ∨
    ((ks.getD q default).2 = (ks.getD p default).2 ∧ q < p))

instance (ks : List (RawRow × Int)) (q p : Nat) : Decidable (lexLt ks q p) := by
  unfold lexLt; infer_instance

/-- `event_rank` of the row at position `p` of the dated rows: one plus the
number of positions that precede it in its partition. -/
def rankAt (ks : List (RawRow × Int)) (p : Nat) : Nat :=
  1 + ((Finset.range ks.length).filter (fun q => lexLt ks q p)).card

/-- The staged row built from position `p` of the dated rows. -/
def stagedOf (ks : List (RawRow × Int)) (p : Nat) : StagedRow :=
  { record_id := (ks.getD p default).1.record_id
    client_id := (ks.getD p default).1.client_id
    event_type := (ks.getD p default).1.event_type
    event_date := (ks.getD p default).2
    plan := (ks.getD p default).1.plan
    region := (ks.getD p default).1.region
    marketing_channel := (ks.getD p default).1.marketing_channel
    sales_rep_id := (ks.getD p default).1.sales_rep_id
    source_system := (ks.getD p default).1.source_system
    event_rank := rankAt ks p }

/-- `StagingEventsProcessor.create_staging_table`: drop rows with a null
`event_date` and attach `event_rank` to every surviving row. -/
def create_staging_table (rows : List RawRow) : List StagedRow :=
  (List.range (keepDated rows).length).map (stagedOf (keepDated rows))

/-- The (`client_id`, `event_type`) partition of a staged table. -/
def part (st : List StagedRow) (c : Option Int) (t : String) : List StagedRow :=
  st.filter (fun r => decide (r.client_id = c ∧ r.event_type = t))

/-- The date at position `p` of the dated rows. -/
def dateAt (ks : List (RawRow × Int)) (p : Nat) : Int := (ks.getD p default).2

/-- The partition key at position `p` of the dated rows. -/
def keyAt (ks : List (RawRow × Int)) (p : Nat) : Option Int × String :=
  ((ks.getD p default).1.client_id, (ks.getD p default).1.event_type)

/-- `lexLt` with the key condition stripped: the within-partition order. -/
def posLt (ks : List (RawRow × Int)) (q p : Nat) : Prop :=
  dateAt ks q < dateAt ks p ∨ (dateAt ks q = dateAt ks p ∧ q < p)

instance (ks : List (RawRow × Int)) (q p : Nat) : Decidable (posLt ks q p) := by
  unfold posLt; infer_instance

theorem lexLt_iff (ks : List (RawRow × Int)) (q p : Nat) :
    lexLt ks q p ↔ keyAt ks q = keyAt ks p ∧ posLt ks q p := by
  unfold lexLt keyAt posLt dateAt
  simp [Prod.ext_iff]
  tauto

theorem posLt_irrefl (ks : List (RawRow × Int)) (p : Nat) : ¬ posLt ks p p := by
  unfold posLt; omega

theorem posLt_trans {ks : List (RawRow × Int)} {a b c : Nat}
    (h1 : posLt ks a b) (h2 : posLt ks b c) : posLt ks a c := by
  unfold posLt at *; omega

theorem posLt_trichotomy (ks : List (RawRow × Int)) {a b : Nat} (h : a ≠ b) :
    posLt ks a b ∨ posLt ks b a := by
  unfold posLt; omega

theorem posLt_date_le {ks : List (RawRow × Int)} {a b : Nat}
    (h : posLt ks a b) : dateAt ks a ≤ dateAt ks b := by
  unfold posLt at h; omega

/-- The set of positions of the dated rows carrying partition key `k`. -/
def partIdx (ks : List (RawRow × Int)) (k : Option Int × String) : Finset Nat :=
  (Finset.range ks.length).filter (fun p => keyAt ks p = k)

theorem rankAt_eq_partIdx {ks : List (RawRow × Int)} {k : Option Int × String} {p : Nat}
    (hp : p ∈ partIdx ks k) :
    rankAt ks p = 1 + ((partIdx ks k).filter (fun q => posLt ks q p)).card := by
  unfold partIdx at hp
  rw [Finset.mem_filter] at hp
  have hset : (Finset.range ks.length).filter (fun q => lexLt ks q p)
      = (partIdx ks k).filter (fun q => posLt ks q p) := by
    unfold partIdx
    rw [Finset.filter_filter]
    apply Finset.filter_congr
    intro q _
    rw [lexLt_iff, hp.2]
  unfold rankAt
  rw [hset]

theorem rankAt_strictMono {ks : List (RawRow × Int)} {k : Option Int × String} {p q : Nat}
    (hp : p ∈ partIdx ks k) (hq : q ∈ partIdx ks k) (h : posLt ks p q) :
    rankAt ks p < rankAt ks q := by
  rw [rankAt_eq_partIdx hp, rankAt_eq_partIdx hq]
  have hnotin : p ∉ (partIdx ks k).filter (fun r => posLt ks r p) := by
    intro hmem
    exact posLt_irrefl ks p (Finset.mem_filter.mp hmem).2
  have hsub : insert p ((partIdx ks k).filter (fun r => posLt ks r p)) ⊆
      (partIdx ks k).filter (fun r => posLt ks r q) := by
    intro x hx
    rcases Finset.mem_insert.mp hx with hx | hx
    · subst hx; exact Finset.mem_filter.mpr ⟨hp, h⟩
    · rcases Finset.mem_filter.mp hx with ⟨hx1, hx2⟩
      exact Finset.mem_filter.mpr ⟨hx1, posLt_trans hx2 h⟩
  have := Finset.card_le_card hsub
  rw [Finset.card_insert_of_not_mem hnotin] at this
  omega

theorem rankAt_injOn {ks : List (RawRow × Int)} {k : Option Int × String} {p q : Nat}
    (hp : p ∈ partIdx ks k) (hq : q ∈ partIdx ks k)
    (h : rankAt ks p = rankAt ks q) : p = q := by
  by_contra hne
  rcases posLt_trichotomy ks hne with hlt | hlt
  · exact absurd h (Nat.ne_of_lt (rankAt_strictMono hp hq hlt))
  · exact absurd h.symm (Nat.ne_of_lt (rankAt_strictMono hq hp hlt))

theorem rankAt_pos {ks : List (RawRow × Int)} (p : Nat) : 1 ≤ rankAt ks p := by
  unfold rankAt; omega

theorem rankAt_le_card {ks : List (RawRow × Int)} {k : Option Int × String} {p : Nat}
    (hp : p ∈ partIdx ks k) : rankAt ks p ≤ (partIdx ks k).card := by
  rw [rankAt_eq_partIdx hp]
  have hsub : (partIdx ks k).filter (fun q => posLt ks q p) ⊆ (partIdx ks k).erase p := by
    intro x hx
    rcases Finset.mem_filter.mp hx with ⟨hx1, hx2⟩
    refine Finset.mem_erase.mpr ⟨?_, hx1⟩
    intro hxp
    exact posLt_irrefl ks p (hxp ▸ hx2)
  have h1 := Finset.card_le_card hsub
  rw [Finset.card_erase_of_mem hp] at h1
  have h2 : 1 ≤ (partIdx ks k).card := Finset.card_pos.mpr ⟨p, hp⟩
  omega

theorem image_rankAt (ks : List (RawRow × Int)) (k : Option Int × String) :
    (partIdx ks k).image (rankAt ks) = Finset.Icc 1 (partIdx ks k).card := by
  apply Finset.eq_of_subset_of_card_le
  · intro a ha
    rcases Finset.mem_image.mp ha with ⟨p, hp, hpa⟩
    exact Finset.mem_Icc.mpr ⟨hpa ▸ rankAt_pos p, hpa ▸ rankAt_le_card hp⟩
  · rw [Finset.card_image_of_injOn (fun p hp q hq h => rankAt_injOn hp hq h)]
    rw [Nat.card_Icc]
    omega

/-- The positions of partition `k` of the dated rows, as a list. -/
def posList (ks : List (RawRow × Int)) (k : Option Int × String) : List Nat :=
  (List.range ks.length).filter (fun p => decide (keyAt ks p = k))

theorem mem_posList_iff {ks : List (RawRow × Int)} {k : Option Int × String} {p : Nat} :
    p ∈ posList ks k ↔ p ∈ partIdx ks k := by
  unfold posList partIdx
  simp only [List.mem_filter, List.mem_range, Finset.mem_filter, Finset.mem_range,
    decide_eq_true_eq]

theorem posList_nodup (ks : List (RawRow × Int)) (k : Option Int × String) :
    (posList ks k).Nodup :=
  (List.nodup_range _).filter _

theorem posList_toFinset (ks : List (RawRow × Int)) (k : Option Int × String) :
    (posList ks k).toFinset = partIdx ks k := by
  ext p; rw [List.mem_toFinset, mem_posList_iff]

theorem posList_length (ks : List (RawRow × Int)) (k : Option Int × String) :
    (posList ks k).length = (partIdx ks k).card := by
  rw [← posList_toFinset, List.toFinset_card_of_nodup (posList_nodup ks k)]

theorem list_toFinset_map {α β : Type} [DecidableEq α] [DecidableEq β]
    (l : List α) (f : α → β) : (l.map f).toFinset = l.toFinset.image f := by
  ext b; simp

theorem toFinset_range'_one (n : Nat) :
    (List.range' 1 n).toFinset = Finset.Icc 1 n := by
  ext a
  simp only [List.mem_toFinset, List.mem_range'_1, Finset.mem_Icc]
  omega

theorem part_staging (rows : List RawRow) (c : Option Int) (t : String) :
    part (create_staging_table rows) c t
      = (posList (keepDated rows) (c, t)).map (stagedOf (keepDated rows)) := by
  unfold part create_staging_table posList
  rw [List.filter_map]
  congr 1
  apply List.filter_congr
  intro p _
  apply decide_eq_decide.mpr
  simp [Function.comp, stagedOf, keyAt, Prod.ext_iff]

theorem part_map_rank (rows : List RawRow) (c : Option Int) (t : String) :
    (part (create_staging_table rows) c t).map (fun r => r.event_rank)
      = (posList (keepDated rows) (c, t)).map (rankAt (keepDated rows)) := by
  rw [part_staging, List.map_map]
  rfl

/-- **C1.**  In the table produced by `create_staging_table`, within each
(`client_id`, `event_type`) partition the `event_rank` values are exactly the
integers `1..N` where `N` is the size of the partition (a permutation, each
rank occurring once), `event_rank` is monotonic with `event_date` (a smaller
rank has a date no later than a larger rank), and a rank-1 row carries the
earliest date of its partition. -/
theorem staging_event_rank_partition (rows : List RawRow) (c : Option Int) (t : String) :
    ((part (create_staging_table rows) c t).map (fun r => r.event_rank)).Perm
        (List.range' 1 (part (create_staging_table rows) c t).length) ∧
    (∀ r ∈ part (create_staging_table rows) c t,
      ∀ s ∈ part (create_staging_table rows) c t,
        r.event_rank < s.event_rank → r.event_date ≤ s.event_date) ∧
    (∀ r ∈ part (create_staging_table rows) c t, r.event_rank = 1 →
      ∀ s ∈ part (create_staging_table rows) c t, r.event_date ≤ s.event_date) := by
  have hmono : ∀ r ∈ part (create_staging_table rows) c t,
      ∀ s ∈ part (create_staging_table rows) c t,
        r.event_rank < s.event_rank → r.event_date ≤ s.event_date := by
    intro r hr s hs hlt
    rw [part_staging] at hr hs
    rcases List.mem_map.mp hr with ⟨p, hp, rfl⟩
    rcases List.mem_map.mp hs with ⟨q, hq, rfl⟩
    have hp' := mem_posList_iff.mp hp
    have hq' := mem_posList_iff.mp hq
    show dateAt (keepDated rows) p ≤ dateAt (keepDated rows) q
    by_cases hpq : p = q
    · subst hpq; exact le_refl _
    · rcases posLt_trichotomy (keepDated rows) hpq with h | h
      · exact posLt_date_le h
      · have := rankAt_strictMono hq' hp' h
        have hlt' : rankAt (keepDated rows) p < rankAt (keepDated rows) q := hlt
        omega
  refine ⟨?_, hmono, ?_⟩
  · rw [part_map_rank, part_staging, List.length_map]
    apply List.perm_of_nodup_nodup_toFinset_eq
    · apply (posList_nodup (keepDated rows) (c, t)).map_on
      intro p hp q hq h
      exact rankAt_injOn (mem_posList_iff.mp hp) (mem_posList_iff.mp hq) h
    · exact List.nodup_range' _ _
    · rw [list_toFinset_map, posList_toFinset, image_rankAt, toFinset_range'_one,
        posList_length]
  · intro r hr h1 s hs
    rw [part_staging] at hr hs
    rcases List.mem_map.mp hr with ⟨p, hp, rfl⟩
    rcases List.mem_map.mp hs with ⟨q, hq, rfl⟩
    have hp' := mem_posList_iff.mp hp
    have hq' := mem_posList_iff.mp hq
    have h1' : rankAt (keepDated rows) p = 1 := h1
    have hqpos : 1 ≤ rankAt (keepDated rows) q := rankAt_pos q
    rcases Nat.lt_or_ge 1 (rankAt (keepDated rows) q) with hgt | hle
    · refine hmono _ ?_ _ ?_ ?_
      · rw [part_staging]; exact List.mem_map.mpr ⟨p, hp, rfl⟩
      · rw [part_staging]; exact List.mem_map.mpr ⟨q, hq, rfl⟩
      · show rankAt (keepDated rows) p < rankAt (keepDated rows) q
        omega
    · have heq : rankAt (keepDated rows) p = rankAt (keepDated rows) q := by omega
      have := rankAt_injOn hp' hq' heq
      subst this
      exact le_refl _

theorem mem_part {st : List StagedRow} {c : Option Int} {t : String} {r : StagedRow} :
    r ∈ part st c t ↔ r ∈ st ∧ r.client_id = c ∧ r.event_type = t := by
  unfold part
  simp [List.mem_filter]

theorem part_of_mem {st : List StagedRow} {c : Option Int} {t : String} {r : StagedRow}
    (h : r ∈ part st c t) :
    part st r.client_id r.event_type = part st c t := by
  rcases mem_part.mp h with ⟨-, h1, h2⟩
  rw [h1, h2]

/-- The distinct `client_id` values of a table, in first-appearance order
(the embedding of `GROUP BY client_id`). -/
def clientList (st : List StagedRow) : List (Option Int) :=
  dedupFirst (st.map (fun r => r.client_id))

theorem mem_clientList {st : List StagedRow} {c : Option Int} :
    c ∈ clientList st ↔ ∃ r ∈ st, r.client_id = c := by
  unfold clientList
  rw [mem_dedupFirst]
  simp [List.mem_map]

/-- The `event_date`s of a client's rows of one event type (the values over
which `MIN(CASE WHEN event_type = t THEN event_date END)` / the corresponding
`MAX` aggregate and the `COUNT(CASE ...)` aggregates range, `NULL`s already
removed). -/
def typeDates (st : List StagedRow) (c : Option Int) (t : String) : List Int :=
  (part st c t).map (fun r => r.event_date)

/-- `MIN(CASE WHEN event_type = t THEN event_date END)` grouped by client. -/
def firstDate (st : List StagedRow) (c : Option Int) (t : String) : Option Int :=
  (typeDates st c t).min?

/-- `MAX(CASE WHEN event_type = t THEN event_date END)` grouped by client. -/
def lastDate (st : List StagedRow) (c : Option Int) (t : String) : Option Int :=
  (typeDates st c t).max?

/-- `COUNT(CASE WHEN event_type = t THEN 1 END)` grouped by client. -/
def typeCount (st : List StagedRow) (c : Option Int) (t : String) : Nat :=
  (typeDates st c t).length

/-- A client's rows, regardless of type. -/
def rowsOf (st : List StagedRow) (c : Option Int) : List StagedRow :=
  st.filter (fun r => decide (r.client_id = c))

/-- `MAX(event_date)` grouped by client. -/
def lastEventDate (st : List StagedRow) (c : Option Int) : Option Int :=
  ((rowsOf st c).map (fun r => r.event_date)).max?

instance : Std.Antisymm (fun (a b : Int) => a ≤ b) :=
  ⟨fun h1 h2 => le_antisymm h1 h2⟩

theorem int_min?_eq_some_iff {xs : List Int} {a : Int} :
    xs.min? = some a ↔ a ∈ xs ∧ ∀ b ∈ xs, a ≤ b := by
  apply List.min?_eq_some_iff
  · exact fun x => le_refl x
  · exact fun x y => min_choice x y
  · exact fun x y z => le_min_iff

theorem int_max?_eq_some_iff {xs : List Int} {a : Int} :
    xs.max? = some a ↔ a ∈ xs ∧ ∀ b ∈ xs, b ≤ a := by
  apply List.max?_eq_some_iff
  · exact fun x => le_refl x
  · exact fun x y => max_choice x y
  · exact fun x y z => max_le_iff

/-- A row of the funnel analysis output (`FunnelRecord` of the spec). -/
structure FunnelRow where
  client_id : Option Int
  applied_date : Option Int
  docs_submitted_date : Option Int
  rejected_date : Option Int
  signed_date : Option Int
  churned_date : Option Int
deriving DecidableEq, Repr, Inhabited

/-- The `WHERE event_rank = 1` restriction of `funnel_sql`. -/
def rank1 (st : List StagedRow) : List StagedRow :=
  st.filter (fun r => decide (r.event_rank = 1))

/-- `FunnelDataProcessor.create_funnel_analysis`: per client, the `MIN`
`event_date` of each of the 5 known event types, restricted to rows with
`event_rank = 1`. -/
def create_funnel_analysis (st : List StagedRow) : List FunnelRow :=
  (clientList (rank1 st)).map (fun c =>
    { client_id := c
      applied_date := firstDate (rank1 st) c "applied"
      docs_submitted_date := firstDate (rank1 st) c "docs_submitted"
      rejected_date := firstDate (rank1 st) c "rejected"
      signed_date := firstDate (rank1 st) c "signed"
      churned_date := firstDate (rank1 st) c "churned" })

/-- The event ranker's invariant (§3 / §8 of the spec): within every
(`client_id`, `event_type`) partition, `event_rank` is a permutation of
`1..N`, and a smaller-or-equal rank implies a no-later `event_date`. -/
def RankerInv (st : List StagedRow) : Prop :=
  ∀ r ∈ st,
    ((part st r.client_id r.event_type).map (fun s => s.event_rank)).Perm
        (List.range' 1 (part st r.client_id r.event_type).length) ∧
    ∀ s ∈ part st r.client_id r.event_type,
      r.event_rank ≤ s.event_rank → r.event_date ≤ s.event_date

instance (st : List StagedRow) : Decidable (RankerInv st) := by
  unfold RankerInv; infer_instance

theorem rank1_part (st : List StagedRow) (c : Option Int) (t : String) :
    part (rank1 st) c t = (part st c t).filter (fun r => decide (r.event_rank = 1)) := by
  unfold part rank1
  rw [List.filter_comm]

theorem rankerInv_exists_rank1 {st : List StagedRow} (h : RankerInv st)
    {c : Option Int} {t : String} (hne : part st c t ≠ []) :
    ∃ s ∈ part st c t, s.event_rank = 1 := by
  obtain ⟨r0, hr0⟩ := List.exists_mem_of_ne_nil _ hne
  have hperm := (h r0 (mem_part.mp hr0).1).1
  rw [part_of_mem hr0] at hperm
  have hlen : 0 < (part st c t).length := List.length_pos.mpr hne
  have h1mem : (1 : Nat) ∈ List.range' 1 (part st c t).length := by
    rw [List.mem_range'_1]; omega
  have := hperm.mem_iff.mpr h1mem
  rcases List.mem_map.mp this with ⟨s, hs, hrank⟩
  exact ⟨s, hs, hrank⟩

theorem rankerInv_rank_ge_one {st : List StagedRow} (h : RankerInv st)
    {c : Option Int} {t : String} {s : StagedRow} (hs : s ∈ part st c t) :
    1 ≤ s.event_rank := by
  have hperm := (h s (mem_part.mp hs).1).1
  rw [part_of_mem hs] at hperm
  have : s.event_rank ∈ (part st c t).map (fun x => x.event_rank) :=
    List.mem_map.mpr ⟨s, hs, rfl⟩
  have := hperm.mem_iff.mp this
  rw [List.mem_range'_1] at this
  omega

theorem rankerInv_rank1_min {st : List StagedRow} (h : RankerInv st)
    {c : Option Int} {t : String} {s : StagedRow} (hs : s ∈ part st c t)
    (h1 : s.event_rank = 1) :
    ∀ x ∈ part st c t, s.event_date ≤ x.event_date := by
  intro x hx
  have hmono := (h s (mem_part.mp hs).1).2
  rw [part_of_mem hs] at hmono
  exact hmono x hx (by have := rankerInv_rank_ge_one h hx; omega)

theorem firstDate_rank1 {st : List StagedRow} (h : RankerInv st)
    (c : Option Int) (t : String) :
    firstDate (rank1 st) c t = firstDate st c t := by
  by_cases hemp : part st c t = []
  · unfold firstDate typeDates
    rw [rank1_part, hemp]
    rfl
  · obtain ⟨s, hs, h1⟩ := rankerInv_exists_rank1 h hemp
    have hmin := rankerInv_rank1_min h hs h1
    have hs1 : s ∈ part (rank1 st) c t := by
      rw [rank1_part]
      exact List.mem_filter.mpr ⟨hs, by simp [h1]⟩
    have hleft : firstDate (rank1 st) c t = some s.event_date := by
      unfold firstDate
      rw [int_min?_eq_some_iff]
      constructor
      · exact List.mem_map.mpr ⟨s, hs1, rfl⟩
      · intro b hb
        rcases List.mem_map.mp hb with ⟨x, hx, rfl⟩
        rw [rank1_part] at hx
        exact hmin x (List.mem_filter.mp hx).1
    have hright : firstDate st c t = some s.event_date := by
      unfold firstDate
      rw [int_min?_eq_some_iff]
      constructor
      · exact List.mem_map.mpr ⟨s, hs, rfl⟩
      · intro b hb
        rcases List.mem_map.mp hb with ⟨x, hx, rfl⟩
        exact hmin x hx
    rw [hleft, hright]

/-- **C2.**  On any staging table satisfying the ranker's invariant, the
funnel aggregator's per-type first-occurrence date (computed over rows with
`event_rank = 1` only) equals the unrestricted `MIN(event_date)` of that
client and type: the rank-1 filter in `create_funnel_analysis` is
semantically redundant, and every client of the staging table appears in the
funnel output. -/
theorem funnel_rank1_filter_redundant (st : List StagedRow) (h : RankerInv st) :
    (∀ r ∈ st, ∃ fr ∈ create_funnel_analysis st, fr.client_id = r.client_id) ∧
    ∀ fr ∈ create_funnel_analysis st,
      fr.applied_date = firstDate st fr.client_id "applied" ∧
      fr.docs_submitted_date = firstDate st fr.client_id "docs_submitted" ∧
      fr.rejected_date = firstDate st fr.client_id "rejected" ∧
      fr.signed_date = firstDate st fr.client_id "signed" ∧
      fr.churned_date = firstDate st fr.client_id "churned" := by
  constructor
  · intro r hr
    have hrp : r ∈ part st r.client_id r.event_type := mem_part.mpr ⟨hr, rfl, rfl⟩
    obtain ⟨s, hs, h1⟩ := rankerInv_exists_rank1 h (List.ne_nil_of_mem hrp)
    have hs_r1 : s ∈ rank1 st :=
      List.mem_filter.mpr ⟨(mem_part.mp hs).1, by simp [h1]⟩
    have hc : s.client_id ∈ clientList (rank1 st) :=
      mem_clientList.mpr ⟨s, hs_r1, rfl⟩
    exact ⟨_, List.mem_map.mpr ⟨s.client_id, hc, rfl⟩, (mem_part.mp hs).2.1⟩
  · intro fr hfr
    rcases List.mem_map.mp hfr with ⟨c, _, rfl⟩
    exact ⟨firstDate_rank1 h c "applied", firstDate_rank1 h c "docs_submitted",
      firstDate_rank1 h c "rejected", firstDate_rank1 h c "signed",
      firstDate_rank1 h c "churned"⟩

/-- The metrics dictionary computed by
`FunnelDataProcessor.analyze_funnel_metrics`.  Python float division is
modelled by exact rational division. -/
structure FunnelMetrics where
  total_clients : Nat
  applied_clients : Nat
  docs_submitted_clients : Nat
  rejected_clients : Nat
  signed_clients : Nat
  churned_clients : Nat
  application_rate : ℚ
  docs_submission_rate : ℚ
  rejection_rate : ℚ
  conversion_rate : ℚ
  churn_rate : ℚ
  active_clients : Int
deriving DecidableEq, Repr

/-- `FunnelDataProcessor.analyze_funnel_metrics`: stage counts are `notna`
counts of the corresponding date column; every rate is guarded by a
`> 0` test of its denominator, yielding `0` instead of dividing by zero. -/
def analyze_funnel_metrics (fd : List FunnelRow) : FunnelMetrics :=
  let total_clients := fd.length
  let applied_clients := (fd.filter (fun r => r.applied_date.isSome)).length
  let docs_submitted_clients := (fd.filter (fun r => r.docs_submitted_date.isSome)).length
  let rejected_clients := (fd.filter (fun r => r.rejected_date.isSome)).length
  let signed_clients := (fd.filter (fun r => r.signed_date.isSome)).length
  let churned_clients := (fd.filter (fun r => r.churned_date.isSome)).length
  { total_clients := total_clients
    applied_clients := applied_clients
    docs_submitted_clients := docs_submitted_clients
    rejected_clients := rejected_clients
    signed_clients := signed_clients
    churned_clients := churned_clients
    application_rate :=
      if 0 < total_clients then (applied_clients : ℚ) / (total_clients : ℚ) else 0
    docs_submission_rate :=
      if 0 < applied_clients then (docs_submitted_clients : ℚ) / (applied_clients : ℚ) else 0
    rejection_rate :=
      if 0 < applied_clients then (rejected_clients : ℚ) / (applied_clients : ℚ) else 0
    conversion_rate :=
      if 0 < applied_clients then (signed_clients : ℚ) / (applied_clients : ℚ) else 0
    churn_rate :=
      if 0 < signed_clients then (churned_clients : ℚ) / (signed_clients : ℚ) else 0
    active_clients :=
      if churned_clients ≤ signed_clients
      then (signed_clients : Int) - (churned_clients : Int) else 0 }

theorem guard_rate_nonneg (a b : Nat) :
    0 ≤ (if 0 < b then (a : ℚ) / (b : ℚ) else 0) := by
  split
  · positivity
  · exact le_refl 0

theorem guard_rate_le_one {a b : Nat} (h : a ≤ b) :
    (if 0 < b then (a : ℚ) / (b : ℚ) else 0) ≤ 1 := by
  split
  · rw [div_le_one (by exact_mod_cast ‹0 < b›)]
    exact_mod_cast h
  · norm_num

theorem guard_rate_zero_denom {a b : Nat} (h : b = 0) :
    (if 0 < b then (a : ℚ) / (b : ℚ) else 0) = 0 := by
  simp [h]

/-- The funnel dataframe of the C3 counterexample: client 1 has only a
`signed` first-occurrence date, client 2 has both `applied` and `signed`.
Then `signed_clients = 2 > 1 = applied_clients`. -/
def exFunnelC3 : List FunnelRow :=
  [{ client_id := some 1, applied_date := none, docs_submitted_date := none,
     rejected_date := none, signed_date := some 0, churned_date := none },
   { client_id := some 2, applied_date := some 0, docs_submitted_date := none,
     rejected_date := none, signed_date := some 1, churned_date := none }]

/-- **C3, counterexample.**  The claim that every rate field lies in `[0, 1]`
fails: on `exFunnelC3`, `conversion_rate = signed_clients / applied_clients
= 2 / 1 = 2 > 1` (a client can sign without ever applying, so the numerator
count is not bounded by the denominator count). -/
theorem funnel_rate_in_unit_interval_counterexample :
    ¬ ((analyze_funnel_metrics exFunnelC3).conversion_rate ≤ 1) := by
  have h2 : (analyze_funnel_metrics exFunnelC3).conversion_rate = 2 := by
    norm_num [analyze_funnel_metrics, exFunnelC3]
  rw [h2]
  norm_num

/-- **C3, amended.**  Every rate field of `analyze_funnel_metrics` is
nonnegative and equals `0` (rather than erroring) when its denominator is
`0`; `application_rate` always lies in `[0, 1]`; each of the other four
rates lies in `[0, 1]` whenever its numerator count does not exceed its
denominator count (which the code does not guarantee in general). -/
theorem funnel_rates_guarded (fd : List FunnelRow) :
    (0 ≤ (analyze_funnel_metrics fd).application_rate ∧
     0 ≤ (analyze_funnel_metrics fd).docs_submission_rate ∧
     0 ≤ (analyze_funnel_metrics fd).rejection_rate ∧
     0 ≤ (analyze_funnel_metrics fd).conversion_rate ∧
     0 ≤ (analyze_funnel_metrics fd).churn_rate) ∧
    ((analyze_funnel_metrics fd).total_clients = 0 →
      (analyze_funnel_metrics fd).application_rate = 0) ∧
    ((analyze_funnel_metrics fd).applied_clients = 0 →
      (analyze_funnel_metrics fd).docs_submission_rate = 0 ∧
      (analyze_funnel_metrics fd).rejection_rate = 0 ∧
      (analyze_funnel_metrics fd).conversion_rate = 0) ∧
    ((analyze_funnel_metrics fd).signed_clients = 0 →
      (analyze_funnel_metrics fd).churn_rate = 0) ∧
    (analyze_funnel_metrics fd).application_rate ≤ 1 ∧
    ((analyze_funnel_metrics fd).docs_submitted_clients ≤
        (analyze_funnel_metrics fd).applied_clients →
      (analyze_funnel_metrics fd).docs_submission_rate ≤ 1) ∧
    ((analyze_funnel_metrics fd).rejected_clients ≤
        (analyze_funnel_metrics fd).applied_clients →
      (analyze_funnel_metrics fd).rejection_rate ≤ 1) ∧
    ((analyze_funnel_metrics fd).signed_clients ≤
        (analyze_funnel_metrics fd).applied_clients →
      (analyze_funnel_metrics fd).conversion_rate ≤ 1) ∧
    ((analyze_funnel_metrics fd).churned_clients ≤
        (analyze_funnel_metrics fd).signed_clients →
      (analyze_funnel_metrics fd).churn_rate ≤ 1) := by
  refine ⟨⟨?_, ?_, ?_, ?_, ?_⟩, ?_, ?_, ?_, ?_, ?_, ?_, ?_, ?_⟩
  · exact guard_rate_nonneg _ _
  · exact guard_rate_nonneg _ _
  · exact guard_rate_nonneg _ _
  · exact guard_rate_nonneg _ _
  · exact guard_rate_nonneg _ _
  · exact fun h => guard_rate_zero_denom h
  · exact fun h => ⟨guard_rate_zero_denom h, guard_rate_zero_denom h,
      guard_rate_zero_denom h⟩
  · exact fun h => guard_rate_zero_denom h
  · exact guard_rate_le_one (List.length_filter_le _ _)
  · exact fun h => guard_rate_le_one h
  · exact fun h => guard_rate_le_one h
  · exact fun h => guard_rate_le_one h
  · exact fun h => guard_rate_le_one h

/-- A row of the churn analysis output (`ChurnRecord` of the spec). -/
structure ChurnRow where
  client_id : Option Int
  last_event_date : Int
  applied_date : Option Int
  signed_date : Option Int
  churned_date : Option Int
  last_event_type : Option String
  is_churned : Nat
  days_since_last_event : Int
  days_since_signed : Option Int
deriving DecidableEq, Repr, Inhabited

/-- SQL equality on two nullable integers: true only when both are non-NULL
and equal (under SQL three-valued logic `NULL = NULL` is not a match). -/
def sqlEqB (x y : Option Int) : Bool :=
  match x, y with
  | some a, some b => decide (a = b)
  | _, _ => false

/-- The rows matched by the `LEFT JOIN` of `churn_sql`:
`le.client_id = se.client_id AND le.last_event_date = se.event_date AND
se.event_rank = 1`, with the client comparison under SQL semantics, so a
NULL group key matches no staged row. -/
def matchingRows (st : List StagedRow) (c : Option Int) (last : Int) : List StagedRow :=
  st.filter (fun r =>
    sqlEqB r.client_id c && decide (r.event_date = last ∧ r.event_rank = 1))

/-- A NULL-client group never joins, so the churn output for it is exactly
one row with a null `last_event_type`. -/
theorem matchingRows_none (st : List StagedRow) (last : Int) :
    matchingRows st none last = [] := by
  unfold matchingRows
  rw [List.filter_eq_nil_iff]
  intro r _
  cases hcid : r.client_id <;> simp [sqlEqB, hcid]

/-- The churn rows produced for one client group: one row per `LEFT JOIN`
match, or a single row with a null `last_event_type` when nothing matches. -/
def churnRowsFor (now : Int) (st : List StagedRow) (c : Option Int) : List ChurnRow :=
  match lastEventDate st c with
  | none => []
  | some last =>
    let mkRow : Option String → ChurnRow := fun ty =>
      { client_id := c
        last_event_date := last
        applied_date := lastDate st c "applied"
        signed_date := lastDate st c "signed"
        churned_date := lastDate st c "churned"
        last_event_type := ty
        is_churned := if (lastDate st c "churned").isSome then 1 else 0
        days_since_last_event := now - last
        days_since_signed := (lastDate st c "signed").map (fun s => now - s) }
    let ms := matchingRows st c last
    if ms.isEmpty then [mkRow none] else ms.map (fun m => mkRow (some m.event_type))

/-- `ChurnDataProcessor.create_churn_analysis` (`julianday('now')` passed in
as `now`). -/
def create_churn_analysis (now : Int) (st : List StagedRow) : List ChurnRow :=
  (clientList st).flatMap (churnRowsFor now st)

theorem churnRowsFor_client {now : Int} {st : List StagedRow} {x : Option Int}
    {y : ChurnRow} (hy : y ∈ churnRowsFor now st x) : y.client_id = x := by
  unfold churnRowsFor at hy
  cases h : lastEventDate st x with
  | none => rw [h] at hy; cases hy
  | some last =>
    rw [h] at hy
    simp only at hy
    split at hy
    · rcases List.mem_singleton.mp hy with rfl
      rfl
    · rcases List.mem_map.mp hy with ⟨m, _, rfl⟩
      rfl

theorem filter_bind_key {α β : Type} [DecidableEq β] (l : List β) (f : β → List α)
    (key : α → β) (c : β) (hl : l.Nodup) (hc : c ∈ l)
    (hkey : ∀ x ∈ l, ∀ y ∈ f x, key y = x) :
    (l.flatMap f).filter (fun y => decide (key y = c)) = f c := by
  induction l with
  | nil => cases hc
  | cons x xs ih =>
    rw [List.flatMap_cons, List.filter_append]
    rcases List.mem_cons.mp hc with rfl | hc'
    · have h1 : (f c).filter (fun y => decide (key y = c)) = f c := by
        rw [List.filter_eq_self]
        intro y hy
        simp [hkey c (List.mem_cons_self c xs) y hy]
      have h2 : (xs.flatMap f).filter (fun y => decide (key y = c)) = [] := by
        rw [List.filter_eq_nil_iff]
        intro y hy
        rcases List.mem_flatMap.mp hy with ⟨x', hx', hyx'⟩
        have := hkey x' (List.mem_cons_of_mem c hx') y hyx'
        have hne : x' ≠ c := fun h => (List.nodup_cons.mp hl).1 (h ▸ hx')
        simp [this, hne]
      rw [h1, h2, List.append_nil]
    · have hxc : x ≠ c := fun h => (List.nodup_cons.mp hl).1 (h ▸ hc')
      have h1 : (f x).filter (fun y => decide (key y = c)) = [] := by
        rw [List.filter_eq_nil_iff]
        intro y hy
        have := hkey x (List.mem_cons_self x xs) y hy
        simp [this, hxc]
      rw [h1, List.nil_append]
      exact ih (List.nodup_cons.mp hl).2 hc'
        (fun x' hx' => hkey x' (List.mem_cons_of_mem x hx'))

/-- The staging table of the C4/C6-style tie scenario: client 1 has an
`applied` and a `signed` event on the same (latest) date, both rank 1. -/
def exStC4 : List StagedRow :=
  [{ record_id := some 1, client_id := some 1, event_type := "applied", event_date := 0,
     plan := some "Basic", region := some "eu", marketing_channel := some "web",
     sales_rep_id := some 5, source_system := some "crm", event_rank := 1 },
   { record_id := some 2, client_id := some 1, event_type := "signed", event_date := 0,
     plan := some "Basic", region := some "eu", marketing_channel := some "web",
     sales_rep_id := some 5, source_system := some "crm", event_rank := 1 }]

/-- **C4, counterexample.**  The churn output does not contain exactly one
row per distinct client: on `exStC4` (two rank-1 rows of client 1 sharing the
latest date) the `LEFT JOIN` matches twice and produces two rows for
client 1. -/
theorem churn_one_row_per_client_counterexample :
    ¬ (∀ c ∈ clientList exStC4,
        ((create_churn_analysis 100 exStC4).filter
          (fun r => decide (r.client_id = c))).length = 1) := by
  decide

/-- **C4, amended.**  For every client of the staging table the churn output
contains at least one row — exactly one per `LEFT JOIN` match (a staged row
of that client with `event_date` equal to the client's `MAX(event_date)` and
`event_rank = 1`), or exactly one with a null `last_event_type` when no row
matches; in particular it is exactly one row whenever at most one staged row
matches.  Every non-null `last_event_type` is the `event_type` of some
matching row. -/
theorem churn_rows_per_client (now : Int) (st : List StagedRow) (c : Option Int)
    (hc : c ∈ clientList st) :
    ∃ last, lastEventDate st c = some last ∧
      ((create_churn_analysis now st).filter
          (fun r => decide (r.client_id = c))).length
        = max (matchingRows st c last).length 1 ∧
      ∀ cr ∈ create_churn_analysis now st, cr.client_id = c →
        ((matchingRows st c last = [] → cr.last_event_type = none) ∧
         ∀ ty, cr.last_event_type = some ty →
           ∃ m ∈ matchingRows st c last, m.event_type = ty) := by
  obtain ⟨r, hr, hrc⟩ := mem_clientList.mp hc
  have hne : (rowsOf st c).map (fun r => r.event_date) ≠ [] := by
    have hrrows : r ∈ rowsOf st c := by
      unfold rowsOf
      exact List.mem_filter.mpr ⟨hr, by simp [hrc]⟩
    exact List.ne_nil_of_mem (List.mem_map.mpr ⟨r, hrrows, rfl⟩)
  obtain ⟨last, hlast⟩ : ∃ last, lastEventDate st c = some last := by
    unfold lastEventDate
    cases hmax : ((rowsOf st c).map (fun r => r.event_date)).max? with
    | none => exact absurd (List.max?_eq_none_iff.mp hmax) hne
    | some v => exact ⟨v, rfl⟩
  have hfilter : (create_churn_analysis now st).filter
      (fun r => decide (r.client_id = c)) = churnRowsFor now st c := by
    unfold create_churn_analysis
    exact filter_bind_key (clientList st) (churnRowsFor now st)
      (fun r => r.client_id) c (nodup_dedupFirst _) hc
      (fun x _ y hy => churnRowsFor_client hy)
  refine ⟨last, hlast, ?_, ?_⟩
  · rw [hfilter]
    unfold churnRowsFor
    rw [hlast]
    simp only
    split
    · rw [List.isEmpty_iff] at *
      simp_all
    · rw [List.length_map]
      have : ¬ (matchingRows st c last).isEmpty := by assumption
      rw [List.isEmpty_iff] at this
      have : 1 ≤ (matchingRows st c last).length :=
        List.length_pos.mpr this
      omega
  · intro cr hcr hcrc
    have hcr' : cr ∈ churnRowsFor now st c := by
      rw [← hfilter]
      exact List.mem_filter.mpr ⟨hcr, by simp [hcrc]⟩
    unfold churnRowsFor at hcr'
    rw [hlast] at hcr'
    simp only at hcr'
    split at hcr'
    · rcases List.mem_singleton.mp hcr' with rfl
      refine ⟨fun _ => rfl, ?_⟩
      intro ty hty
      cases hty
    · constructor
      · intro hnil
        rw [hnil] at hcr'
        simp [List.isEmpty_iff] at *
      · intro ty hty
        rcases List.mem_map.mp hcr' with ⟨m, hm, rfl⟩
        have h' : some m.event_type = some ty := hty
        exact ⟨m, hm, Option.some.inj h'⟩

/-- A finding of `analyze_churned_without_signed`. -/
structure CwsRow where
  client_id : Option Int
  inconsistency_type : String
  description : String
  relevant_date : Option Int
  signed_count : Nat
  churned_count : Nat
deriving DecidableEq, Repr

/-- `InconsistenciesProcessor.analyze_churned_without_signed` (Q3): clients
with at least one `churned` event and no `signed` event. -/
def analyze_churned_without_signed (st : List StagedRow) : List CwsRow :=
  (clientList st).filterMap (fun c =>
    if 0 < typeCount st c "churned" ∧ typeCount st c "signed" = 0 then
      some { client_id := c
             inconsistency_type := "Q3_churned_without_signed"
             description := "Client churned without ever signing"
             relevant_date := firstDate st c "churned"
             signed_count := typeCount st c "signed"
             churned_count := typeCount st c "churned" }
    else none)

/-- A finding of `analyze_long_inactive_unsigned`. -/
structure LiuRow where
  client_id : Option Int
  inconsistency_type : String
  description : String
  relevant_date : Option Int
  days_inactive : Int
  signed_count : Nat
deriving DecidableEq, Repr

/-- `InconsistenciesProcessor.analyze_long_inactive_unsigned` (Q6): unsigned
clients inactive for more than 60 days at time `now`. -/
def analyze_long_inactive_unsigned (now : Int) (st : List StagedRow) : List LiuRow :=
  (clientList st).filterMap (fun c =>
    match lastEventDate st c with
    | none => none
    | some last =>
      if typeCount st c "signed" = 0 ∧ 60 < now - last then
        some { client_id := c
               inconsistency_type := "Q6_long_inactive_unsigned"
               description := "Unsigned client with long inactivity (>60 days) - potential at-risk"
               relevant_date := some last
               days_inactive := now - last
               signed_count := typeCount st c "signed" }
      else none)

/-- A finding of `analyze_signed_without_applied`. -/
structure SwaRow where
  client_id : Option Int
  inconsistency_type : String
  description : String
  relevant_date : Option Int
  applied_count : Nat
  signed_count : Nat
deriving DecidableEq, Repr

/-- `InconsistenciesProcessor.analyze_signed_without_applied` (Q2): clients
with at least one `signed` event and no `applied` event. -/
def analyze_signed_without_applied (st : List StagedRow) : List SwaRow :=
  (clientList st).filterMap (fun c =>
    if 0 < typeCount st c "signed" ∧ typeCount st c "applied" = 0 then
      some { client_id := c
             inconsistency_type := "Q2_signed_without_applied"
             description := "Client signed without applying first"
             relevant_date := firstDate st c "signed"
             applied_count := typeCount st c "applied"
             signed_count := typeCount st c "signed" }
    else none)

/-- A finding of `analyze_multiple_applications`. -/
structure MultiAppRow where
  client_id : Option Int
  inconsistency_type : String
  description : String
  relevant_date : Option Int
  application_count : Nat
  date_range_days : Int
deriving DecidableEq, Repr

/-- The first query of `analyze_multiple_applications`: the clients with
more than one `applied` event (`GROUP BY client_id HAVING COUNT(*) > 1`); a
NULL group key survives into this list. -/
def multiAppClients (st : List StagedRow) : List (Option Int) :=
  (clientList st).filter (fun c => decide (1 < typeCount st c "applied"))

/-- The findings of `InconsistenciesProcessor.analyze_multiple_applications`
(Q1) on the non-raising path: clients with more than one `applied` event;
`date_range_days` is the integer day difference between the last and the
first application (when the guard holds both extrema exist, so the `getD 0`
defaults are never exercised).  The raising path of the source — a NULL id
in the interpolated `IN (...)` list — is modelled by
`analyze_multiple_applications_checked`. -/
def analyze_multiple_applications (st : List StagedRow) : List MultiAppRow :=
  (clientList st).filterMap (fun c =>
    if 1 < typeCount st c "applied" then
      some { client_id := c
             inconsistency_type := "Q1_multiple_applications"
             description := "Client has multiple application events"
             relevant_date := firstDate st c "applied"
             application_count := typeCount st c "applied"
             date_range_days :=
               (lastDate st c "applied").getD 0 - (firstDate st c "applied").getD 0 }
    else none)

/-- `analyze_multiple_applications` with its error path.  The source
interpolates the ids returned by the first query into the detail query as an
f-string `IN (...)` list; when that list contains the NULL group key (a
client with more than one `applied` event and no `client_id`), the rendered
SQL reads `client_id IN (nan)` and `read_sql_query` raises
`sqlite3.OperationalError: no such column: nan` instead of returning a
table.  Otherwise the detail query returns the findings. -/
def analyze_multiple_applications_checked (st : List StagedRow) :
    Except String (List MultiAppRow) :=
  if none ∈ multiAppClients st then Except.error "no such column: nan"
  else Except.ok (analyze_multiple_applications st)

/-- `x IS NULL OR x = ''` of the `unknown_values` query. -/
def isNullOrEmpty (x : Option String) : Prop := x = none ∨ x = some ""

instance (x : Option String) : Decidable (isNullOrEmpty x) := by
  unfold isNullOrEmpty; infer_instance

/-- The `WHERE` predicate of `analyze_unknown_values`: a row is flagged iff
`plan = 'Unknown'`, or `sales_rep_id = -1`, or one of `region`,
`marketing_channel`, `source_system` is null or empty.  (Comparisons with a
`NULL` column are false in SQL, hence the `some`-shapes.) -/
def unknown_flag (r : StagedRow) : Prop :=
  r.plan = some "Unknown" ∨ r.sales_rep_id = some (-1) ∨ isNullOrEmpty r.region ∨
  isNullOrEmpty r.marketing_channel ∨ isNullOrEmpty r.source_system

instance (r : StagedRow) : Decidable (unknown_flag r) := by
  unfold unknown_flag; infer_instance

/-- The `CASE`-chain description of `analyze_unknown_values`. -/
def unknown_description (r : StagedRow) : String :=
  if r.plan = some "Unknown" then "Plan field has Unknown value"
  else if r.sales_rep_id = some (-1) then "Sales rep ID is -1 (missing/unknown)"
  else if isNullOrEmpty r.region then "Region field is missing"
  else if isNullOrEmpty r.marketing_channel then "Marketing channel is missing"
  else if isNullOrEmpty r.source_system then "Source system is missing"
  else "Other unknown value detected"

/-- A finding of `analyze_unknown_values` (one per offending record). -/
structure UnknownRow where
  client_id : Option Int
  record_id : Option Int
  event_type : String
  event_date : Int
  inconsistency_type : String
  description : String
  plan : Option String
  sales_rep_id : Option Int
  region : Option String
  marketing_channel : Option String
  source_system : Option String
deriving DecidableEq, Repr

/-- `InconsistenciesProcessor.analyze_unknown_values`: one finding per staged
row matching `unknown_flag` (its `ORDER BY client_id, event_date` affects
presentation order only and is not modelled). -/
def analyze_unknown_values (st : List StagedRow) : List UnknownRow :=
  (st.filter (fun r => decide (unknown_flag r))).map (fun r =>
    { client_id := r.client_id
      record_id := r.record_id
      event_type := r.event_type
      event_date := r.event_date
      inconsistency_type := "unknown_values"
      description := unknown_description r
      plan := r.plan
      sales_rep_id := r.sales_rep_id
      region := r.region
      marketing_channel := r.marketing_channel
      source_system := r.source_system })

/-- SQL `x < y` on two nullable dates: false unless both are non-null. -/
def optLtB (x y : Option Int) : Bool :=
  match x, y with
  | some a, some b => decide (a < b)
  | _, _ => false

/-- The `CASE` chain of the `violations` CTE of
`analyze_event_sequence_violations`, evaluated in source order. -/
def violationType (st : List StagedRow) (c : Option Int) : Option String :=
  if optLtB (firstDate st c "signed") (firstDate st c "applied") then
    some "signed_before_applied"
  else if optLtB (firstDate st c "docs_submitted") (firstDate st c "applied") then
    some "docs_submitted_before_applied"
  else if optLtB (firstDate st c "rejected") (firstDate st c "applied") then
    some "rejected_before_applied"
  else if (firstDate st c "churned").isSome && (firstDate st c "signed").isSome &&
      optLtB (firstDate st c "churned") (firstDate st c "signed") then
    some "churned_before_signed"
  else none

/-- The description `CASE` of `analyze_event_sequence_violations`. -/
def violationDescription (vt : String) : String :=
  if vt = "signed_before_applied" then "Client signed before applying"
  else if vt = "docs_submitted_before_applied" then "Client submitted docs before applying"
  else if vt = "rejected_before_applied" then "Client was rejected before applying"
  else if vt = "churned_before_signed" then "Client churned before signing"
  else "Unknown sequence violation"

/-- A finding of `analyze_event_sequence_violations`. -/
structure SeqRow where
  client_id : Option Int
  inconsistency_type : String
  description : String
  violation_type : String
  first_applied_date : Option Int
  first_signed_date : Option Int
  first_docs_date : Option Int
  first_rejected_date : Option Int
  first_churned_date : Option Int
deriving DecidableEq, Repr

/-- The optional sequence-violation finding of one client. -/
def seqRowFor (st : List StagedRow) (c : Option Int) : Option SeqRow :=
  match violationType st c with
  | none => none
  | some vt =>
    some { client_id := c
           inconsistency_type := "sequence_violation"
           description := violationDescription vt
           violation_type := vt
           first_applied_date := firstDate st c "applied"
           first_signed_date := firstDate st c "signed"
           first_docs_date := firstDate st c "docs_submitted"
           first_rejected_date := firstDate st c "rejected"
           first_churned_date := firstDate st c "churned" }

/-- `InconsistenciesProcessor.analyze_event_sequence_violations`: one row per
client whose `violationType` is non-null. -/
def analyze_event_sequence_violations (st : List StagedRow) : List SeqRow :=
  (clientList st).filterMap (seqRowFor st)

/-- A finding of `analyze_docs_submitted_pattern`. -/
structure DocsRow where
  client_id : Option Int
  inconsistency_type : String
  description : String
  applied_count : Nat
  docs_count : Nat
  signed_count : Nat
  rejected_count : Nat
  first_applied : Option Int
  first_signed : Option Int
deriving DecidableEq, Repr

/-- The description `CASE` of `analyze_docs_submitted_pattern`. -/
def docsDescription (a d s rj : Nat) : String :=
  if 0 < a ∧ d = 0 ∧ 0 < s then "Applied and signed without docs submission"
  else if 0 < a ∧ d = 0 ∧ s = 0 ∧ rj = 0 then "Applied but no docs submission (still pending?)"
  else if 0 < d then "Has docs submission event"
  else "Other pattern"

/-- `InconsistenciesProcessor.analyze_docs_submitted_pattern`: one row per
client with at least one `applied` event (its composite `ORDER BY` affects
presentation order only and is not modelled). -/
def analyze_docs_submitted_pattern (st : List StagedRow) : List DocsRow :=
  (clientList st).filterMap (fun c =>
    if 0 < typeCount st c "applied" then
      some { client_id := c
             inconsistency_type := "docs_submitted_analysis"
             description := docsDescription (typeCount st c "applied")
               (typeCount st c "docs_submitted") (typeCount st c "signed")
               (typeCount st c "rejected")
             applied_count := typeCount st c "applied"
             docs_count := typeCount st c "docs_submitted"
             signed_count := typeCount st c "signed"
             rejected_count := typeCount st c "rejected"
             first_applied := firstDate st c "applied"
             first_signed := firstDate st c "signed" }
    else none)

/-- A finding of `analyze_plan_inconsistencies`. -/
structure PlanRow where
  client_id : Option Int
  inconsistency_type : String
  description : String
  unique_plans : Nat
  all_plans : String
  first_event : Option Int
  last_event : Option Int
deriving DecidableEq, Repr

/-- `COUNT(DISTINCT plan)` / `GROUP_CONCAT(DISTINCT plan)` range over the
distinct non-null plans of a client's rows. -/
def distinctPlans (st : List StagedRow) (c : Option Int) : List String :=
  dedupFirst ((rowsOf st c).filterMap (fun r => r.plan))

/-- `InconsistenciesProcessor.analyze_plan_inconsistencies`: clients with
more than one distinct plan. -/
def analyze_plan_inconsistencies (st : List StagedRow) : List PlanRow :=
  (clientList st).filterMap (fun c =>
    if 1 < (distinctPlans st c).length then
      some { client_id := c
             inconsistency_type := "plan_inconsistency"
             description := "Client has multiple different plans across events"
             unique_plans := (distinctPlans st c).length
             all_plans := String.intercalate "," (distinctPlans st c)
             first_event := ((rowsOf st c).map (fun r => r.event_date)).min?
             last_event := lastEventDate st c }
    else none)

/-- A row of `analyze_event_type_distribution`. -/
structure EventDistRow where
  event_type : String
  event_count : Nat
  unique_clients : Nat
  earliest_date : Option Int
  latest_date : Option Int
  avg_sales_rep_id : Option ℚ
  plans_involved : String
  regions_involved : String
deriving DecidableEq, Repr

/-- The rows of one event type. -/
def rowsOfType (st : List StagedRow) (t : String) : List StagedRow :=
  st.filter (fun r => decide (r.event_type = t))

/-- `InconsistenciesProcessor.analyze_event_type_distribution`: one summary
row per distinct event type (`AVG` ignores `NULL`s and is null on an empty
set; the `ROUND(..., 2)` presentation rounding and the `ORDER BY event_count
DESC` presentation order are not modelled). -/
def analyze_event_type_distribution (st : List StagedRow) : List EventDistRow :=
  (dedupFirst (st.map (fun r => r.event_type))).map (fun t =>
    let rs := rowsOfType st t
    let reps := rs.filterMap (fun r => r.sales_rep_id)
    { event_type := t
      event_count := rs.length
      unique_clients := (dedupFirst (rs.map (fun r => r.client_id))).length
      earliest_date := (rs.map (fun r => r.event_date)).min?
      latest_date := (rs.map (fun r => r.event_date)).max?
      avg_sales_rep_id :=
        if reps.isEmpty then none
        else some ((reps.map (fun v => (v : ℚ))).sum / (reps.length : ℚ))
      plans_involved := String.intercalate "," (dedupFirst (rs.filterMap (fun r => r.plan)))
      regions_involved := String.intercalate "," (dedupFirst (rs.filterMap (fun r => r.region))) })

/-- One row of the combined findings table (`InconsistencyFinding` of the
spec): the heterogeneous union of the per-check row types, modelled as a
tagged sum. -/
inductive Finding where
  | cws : CwsRow → Finding
  | liu : LiuRow → Finding
  | swa : SwaRow → Finding
  | multiApp : MultiAppRow → Finding
  | unknownVals : UnknownRow → Finding
  | seqViol : SeqRow → Finding
  | docsPattern : DocsRow → Finding
  | planInc : PlanRow → Finding
deriving DecidableEq, Repr

/-- The `client_id` column of the combined findings table. -/
def fclient : Finding → Option Int
  | .cws r => r.client_id
  | .liu r => r.client_id
  | .swa r => r.client_id
  | .multiApp r => r.client_id
  | .unknownVals r => r.client_id
  | .seqViol r => r.client_id
  | .docsPattern r => r.client_id
  | .planInc r => r.client_id

/-- The `inconsistency_type` column of the combined findings table. -/
def ftype : Finding → String
  | .cws r => r.inconsistency_type
  | .liu r => r.inconsistency_type
  | .swa r => r.inconsistency_type
  | .multiApp r => r.inconsistency_type
  | .unknownVals r => r.inconsistency_type
  | .seqViol r => r.inconsistency_type
  | .docsPattern r => r.inconsistency_type
  | .planInc r => r.inconsistency_type

/-- `InconsistenciesProcessor.create_inconsistencies_summary`: the
concatenation (in source order) of all per-check findings.
(`analyze_event_type_distribution` is computed but not concatenated.) -/
def create_inconsistencies_summary (now : Int) (st : List StagedRow) : List Finding :=
  (analyze_churned_without_signed st).map .cws ++
  (analyze_long_inactive_unsigned now st).map .liu ++
  (analyze_signed_without_applied st).map .swa ++
  (analyze_multiple_applications st).map .multiApp ++
  (analyze_unknown_values st).map .unknownVals ++
  (analyze_event_sequence_violations st).map .seqViol ++
  (analyze_docs_submitted_pattern st).map .docsPattern ++
  (analyze_plan_inconsistencies st).map .planInc

/-- Column set of `analyze_churned_without_signed`, from its `SELECT` list. -/
def cws_columns : List String :=
  ["client_id", "inconsistency_type", "description", "relevant_date",
   "signed_count", "churned_count"]

/-- Column set of `analyze_long_inactive_unsigned`. -/
def liu_columns : List String :=
  ["client_id", "inconsistency_type", "description", "relevant_date",
   "days_inactive", "signed_count"]

/-- Column set of `analyze_signed_without_applied`. -/
def swa_columns : List String :=
  ["client_id", "inconsistency_type", "description", "relevant_date",
   "applied_count", "signed_count"]

/-- Column set of `analyze_multiple_applications` (also the explicit empty
DataFrame column list of its zero-match branch). -/
def multi_app_columns : List String :=
  ["client_id", "inconsistency_type", "description", "relevant_date",
   "application_count", "date_range_days"]

/-- Column set of `analyze_unknown_values`. -/
def unknown_values_columns : List String :=
  ["client_id", "record_id", "event_type", "event_date", "inconsistency_type",
   "description", "plan", "sales_rep_id", "region", "marketing_channel",
   "source_system"]

/-- Column set of `analyze_event_sequence_violations`. -/
def sequence_violation_columns : List String :=
  ["client_id", "inconsistency_type", "description", "violation_type",
   "first_applied_date", "first_signed_date", "first_docs_date",
   "first_rejected_date", "first_churned_date"]

/-- Column set of `analyze_docs_submitted_pattern`. -/
def docs_pattern_columns : List String :=
  ["client_id", "inconsistency_type", "description", "applied_count",
   "docs_count", "signed_count", "rejected_count", "first_applied",
   "first_signed"]

/-- Column set of `analyze_plan_inconsistencies`. -/
def plan_inconsistency_columns : List String :=
  ["client_id", "inconsistency_type", "description", "unique_plans",
   "all_plans", "first_event", "last_event"]

/-- The column list of the combined findings DataFrame returned by
`create_inconsistencies_summary`: `pd.concat` of the non-empty per-check
frames takes the first-appearance union of their columns, and the
`pd.DataFrame()` of the all-empty branch has no columns at all. -/
def summary_columns (now : Int) (st : List StagedRow) : List String :=
  let parts : List (List String × Bool) :=
    [(cws_columns, (analyze_churned_without_signed st).isEmpty),
     (liu_columns, (analyze_long_inactive_unsigned now st).isEmpty),
     (swa_columns, (analyze_signed_without_applied st).isEmpty),
     (multi_app_columns, (analyze_multiple_applications st).isEmpty),
     (unknown_values_columns, (analyze_unknown_values st).isEmpty),
     (sequence_violation_columns, (analyze_event_sequence_violations st).isEmpty),
     (docs_pattern_columns, (analyze_docs_submitted_pattern st).isEmpty),
     (plan_inconsistency_columns, (analyze_plan_inconsistencies st).isEmpty)]
  let nonempty := parts.filter (fun p => !p.2)
  if nonempty.isEmpty then [] else dedupFirst (nonempty.flatMap (fun p => p.1))

/-- The full expected column set of the combined findings table: the
first-appearance union of all eight per-check column sets. -/
def summary_expected_columns : List String :=
  dedupFirst (cws_columns ++ liu_columns ++ swa_columns ++ multi_app_columns ++
    unknown_values_columns ++ sequence_violation_columns ++
    docs_pattern_columns ++ plan_inconsistency_columns)

/-- **C5.**  Every client with at least one `churned` event and no `signed`
event appears in the `analyze_churned_without_signed` findings (with
`signed_count = 0` and `churned_count ≥ 1`), and no client with a `signed`
event appears there. -/
theorem churned_without_signed_complete (st : List StagedRow) (c : Option Int)
    (hc : c ∈ clientList st) :
    ((0 < typeCount st c "churned" ∧ typeCount st c "signed" = 0) →
      ∃ row ∈ analyze_churned_without_signed st,
        row.client_id = c ∧ row.signed_count = 0 ∧ 1 ≤ row.churned_count) ∧
    (0 < typeCount st c "signed" →
      ∀ row ∈ analyze_churned_without_signed st, row.client_id ≠ c) := by
  constructor
  · rintro ⟨h1, h2⟩
    refine ⟨{ client_id := c
              inconsistency_type := "Q3_churned_without_signed"
              description := "Client churned without ever signing"
              relevant_date := firstDate st c "churned"
              signed_count := typeCount st c "signed"
              churned_count := typeCount st c "churned" }, ?_, rfl, h2, h1⟩
    apply List.mem_filterMap.mpr
    exact ⟨c, hc, by rw [if_pos ⟨h1, h2⟩]⟩
  · intro hs row hrow hrc
    rcases List.mem_filterMap.mp hrow with ⟨a, _, hfa⟩
    by_cases hcond : 0 < typeCount st a "churned" ∧ typeCount st a "signed" = 0
    · rw [if_pos hcond] at hfa
      injection hfa with hfa
      subst hfa
      have hac : a = c := hrc
      rw [hac] at hcond
      omega
    · rw [if_neg hcond] at hfa
      cases hfa

/-- The staging table of the C8 counterexample: the NULL-client group has
two `applied` events, so the first query returns a NULL id and the detail
query raises. -/
def exStC8null : List StagedRow :=
  [{ record_id := some 1, client_id := none, event_type := "applied", event_date := 0,
     plan := some "Basic", region := some "eu", marketing_channel := some "web",
     sales_rep_id := some 7, source_system := some "crm", event_rank := 1 },
   { record_id := some 2, client_id := none, event_type := "applied", event_date := 1,
     plan := some "Basic", region := some "eu", marketing_channel := some "web",
     sales_rep_id := some 7, source_system := some "crm", event_rank := 2 }]

/-- **C8, counterexample.**  The claim fails as stated over every staging
table: on `exStC8null` the NULL client has more than one `applied` event, so
per the claim it would have to appear in the findings with its application
count — but `analyze_multiple_applications` never returns a findings table
there: the interpolated `client_id IN (nan)` makes the detail query raise. -/
theorem multiple_applications_crash_counterexample :
    (1 < typeCount exStC8null none "applied") ∧
    ∀ out, analyze_multiple_applications_checked exStC8null ≠ Except.ok out := by
  constructor
  · decide
  · intro out h
    have hmem : none ∈ multiAppClients exStC8null := by decide
    unfold analyze_multiple_applications_checked at h
    rw [if_pos hmem] at h
    cases h

/-- **C8, amended.**  On any staging table whose NULL-client group has at
most one `applied` event — otherwise the NULL id reaches the f-string
`IN (...)` list and the detail query raises instead of returning findings —
the detail query returns, a client appears in the findings iff it has more
than one `applied` event, its finding row reports `application_count` equal
to the number of its `applied` events, and `date_range_days` equal to the
integer day difference between its last and first `applied` dates. -/
theorem multiple_applications_characterization (st : List StagedRow)
    (c : Option Int) (hok : ¬ 1 < typeCount st none "applied")
    (hc : c ∈ clientList st) :
    analyze_multiple_applications_checked st
      = Except.ok (analyze_multiple_applications st) ∧
    ((∃ row ∈ analyze_multiple_applications st, row.client_id = c) ↔
      1 < typeCount st c "applied") ∧
    ∀ row ∈ analyze_multiple_applications st, row.client_id = c →
      row.application_count = typeCount st c "applied" ∧
      ∀ dmin dmax, firstDate st c "applied" = some dmin →
        lastDate st c "applied" = some dmax →
        row.date_range_days = dmax - dmin := by
  refine ⟨?_, ?_, ?_⟩
  · unfold analyze_multiple_applications_checked
    rw [if_neg]
    intro hmem
    unfold multiAppClients at hmem
    rcases List.mem_filter.mp hmem with ⟨-, hcond⟩
    exact hok (of_decide_eq_true hcond)
  · constructor
    · rintro ⟨row, hrow, hrc⟩
      rcases List.mem_filterMap.mp hrow with ⟨a, _, hfa⟩
      by_cases hcond : 1 < typeCount st a "applied"
      · rw [if_pos hcond] at hfa
        injection hfa with hfa
        subst hfa
        have hac : a = c := hrc
        rw [hac] at hcond
        exact hcond
      · rw [if_neg hcond] at hfa
        cases hfa
    · intro hcond
      refine ⟨{ client_id := c
                inconsistency_type := "Q1_multiple_applications"
                description := "Client has multiple application events"
                relevant_date := firstDate st c "applied"
                application_count := typeCount st c "applied"
                date_range_days := (lastDate st c "applied").getD 0 -
                  (firstDate st c "applied").getD 0 }, ?_, rfl⟩
      apply List.mem_filterMap.mpr
      exact ⟨c, hc, by rw [if_pos hcond]⟩
  · intro row hrow hrc
    rcases List.mem_filterMap.mp hrow with ⟨a, _, hfa⟩
    by_cases hcond : 1 < typeCount st a "applied"
    · rw [if_pos hcond] at hfa
      injection hfa with hfa
      subst hfa
      have hac : a = c := hrc
      subst hac
      refine ⟨rfl, ?_⟩
      intro dmin dmax hmin hmax
      show (lastDate st a "applied").getD 0 - (firstDate st a "applied").getD 0
        = dmax - dmin
      rw [hmin, hmax]
      rfl
    · rw [if_neg hcond] at hfa
      cases hfa

/-- The client's first `signed` date exists and precedes its first `applied`
date. -/
def SignedBeforeApplied (st : List StagedRow) (c : Option Int) : Prop :=
  ∃ a b, firstDate st c "signed" = some a ∧ firstDate st c "applied" = some b ∧ a < b

/-- The client's first `docs_submitted` date precedes its first `applied`
date. -/
def DocsBeforeApplied (st : List StagedRow) (c : Option Int) : Prop :=
  ∃ a b, firstDate st c "docs_submitted" = some a ∧
    firstDate st c "applied" = some b ∧ a < b

/-- The client's first `rejected` date precedes its first `applied` date. -/
def RejectedBeforeApplied (st : List StagedRow) (c : Option Int) : Prop :=
  ∃ a b, firstDate st c "rejected" = some a ∧ firstDate st c "applied" = some b ∧ a < b

/-- The client's first `churned` date precedes its first `signed` date. -/
def ChurnedBeforeSigned (st : List StagedRow) (c : Option Int) : Prop :=
  ∃ a b, firstDate st c "churned" = some a ∧ firstDate st c "signed" = some b ∧ a < b

theorem optLtB_true_iff {x y : Option Int} :
    optLtB x y = true ↔ ∃ a b, x = some a ∧ y = some b ∧ a < b := by
  cases x <;> cases y <;> simp [optLtB]

theorem violationType_signed {st : List StagedRow} {c : Option Int}
    (h : SignedBeforeApplied st c) :
    violationType st c = some "signed_before_applied" := by
  unfold violationType
  rw [if_pos (optLtB_true_iff.mpr h)]

theorem violationType_docs {st : List StagedRow} {c : Option Int}
    (h1 : ¬ SignedBeforeApplied st c) (h2 : DocsBeforeApplied st c) :
    violationType st c = some "docs_submitted_before_applied" := by
  unfold violationType
  rw [if_neg (fun hb => h1 (optLtB_true_iff.mp hb)), if_pos (optLtB_true_iff.mpr h2)]

theorem violationType_rejected {st : List StagedRow} {c : Option Int}
    (h1 : ¬ SignedBeforeApplied st c) (h2 : ¬ DocsBeforeApplied st c)
    (h3 : RejectedBeforeApplied st c) :
    violationType st c = some "rejected_before_applied" := by
  unfold violationType
  rw [if_neg (fun hb => h1 (optLtB_true_iff.mp hb)),
    if_neg (fun hb => h2 (optLtB_true_iff.mp hb)),
    if_pos (optLtB_true_iff.mpr h3)]

theorem violationType_churned {st : List StagedRow} {c : Option Int}
    (h1 : ¬ SignedBeforeApplied st c) (h2 : ¬ DocsBeforeApplied st c)
    (h3 : ¬ RejectedBeforeApplied st c) (h4 : ChurnedBeforeSigned st c) :
    violationType st c = some "churned_before_signed" := by
  unfold violationType
  rw [if_neg (fun hb => h1 (optLtB_true_iff.mp hb)),
    if_neg (fun hb => h2 (optLtB_true_iff.mp hb)),
    if_neg (fun hb => h3 (optLtB_true_iff.mp hb))]
  rcases h4 with ⟨a, b, ha, hb, hab⟩
  rw [if_pos]
  rw [ha, hb]
  simp [optLtB, hab]

theorem filter_filterMap_key {α β : Type} [DecidableEq β] (l : List β)
    (f : β → Option α) (key : α → β) (c : β) (hl : l.Nodup)
    (hkey : ∀ x y, f x = some y → key y = x) :
    (l.filterMap f).filter (fun y => decide (key y = c)) =
      if c ∈ l then (f c).toList else [] := by
  induction l with
  | nil => simp
  | cons x xs ih =>
    have hl' := List.nodup_cons.mp hl
    rw [List.filterMap_cons]
    cases hfx : f x with
    | none =>
      rw [ih hl'.2]
      by_cases hcx : c = x
      · subst hcx
        simp [hl'.1, hfx]
      · simp [List.mem_cons, hcx]
    | some b =>
      have hkb : key b = x := hkey x b hfx
      rw [List.filter_cons]
      by_cases hcx : c = x
      · subst hcx
        rw [if_pos (by simp [hkb])]
        rw [ih hl'.2]
        simp [hl'.1, hfx]
      · rw [if_neg (by simp [hkb]; exact fun h => hcx h.symm)]
        rw [ih hl'.2]
        simp [List.mem_cons, hcx]

/-- **C9.**  `analyze_event_sequence_violations` emits at most one finding
row per client, and the reported `violation_type` is selected by the fixed
priority order `signed_before_applied`, then `docs_submitted_before_applied`,
then `rejected_before_applied`, then `churned_before_signed` (the first
condition in that order that holds). -/
theorem sequence_violation_priority (st : List StagedRow) (c : Option Int) :
    ((analyze_event_sequence_violations st).filter
        (fun row => decide (row.client_id = c))).length ≤ 1 ∧
    ∀ row ∈ analyze_event_sequence_violations st, row.client_id = c →
      (SignedBeforeApplied st c → row.violation_type = "signed_before_applied") ∧
      (¬ SignedBeforeApplied st c → DocsBeforeApplied st c →
        row.violation_type = "docs_submitted_before_applied") ∧
      (¬ SignedBeforeApplied st c → ¬ DocsBeforeApplied st c →
        RejectedBeforeApplied st c →
        row.violation_type = "rejected_before_applied") ∧
      (¬ SignedBeforeApplied st c → ¬ DocsBeforeApplied st c →
        ¬ RejectedBeforeApplied st c → ChurnedBeforeSigned st c →
        row.violation_type = "churned_before_signed") := by
  have hkey : ∀ x (y : SeqRow), seqRowFor st x = some y → y.client_id = x := by
    intro x y hfx
    unfold seqRowFor at hfx
    cases hvt : violationType st x with
    | none => rw [hvt] at hfx; cases hfx
    | some vt =>
      rw [hvt] at hfx
      injection hfx with hfx
      subst hfx
      rfl
  constructor
  · unfold analyze_event_sequence_violations
    have hca := filter_filterMap_key (clientList st) (seqRowFor st)
      (fun row => row.client_id) c (nodup_dedupFirst _) hkey
    simp only at hca
    rw [hca]
    split
    · cases seqRowFor st c <;> simp
    · simp
  · intro row hrow hrc
    rcases List.mem_filterMap.mp hrow with ⟨a, _, hfa⟩
    have hca : row.client_id = a := hkey a row hfa
    have hac : a = c := by rw [← hca, hrc]
    subst hac
    unfold seqRowFor at hfa
    cases hvt : violationType st a with
    | none => rw [hvt] at hfa; cases hfa
    | some vt =>
      rw [hvt] at hfa
      injection hfa with hfa
      subst hfa
      refine ⟨?_, ?_, ?_, ?_⟩
      · intro h
        have := violationType_signed h
        rw [hvt] at this
        injection this with this
      · intro h1 h2
        have := violationType_docs h1 h2
        rw [hvt] at this
        injection this with this
      · intro h1 h2 h3
        have := violationType_rejected h1 h2 h3
        rw [hvt] at this
        injection this with this
      · intro h1 h2 h3 h4
        have := violationType_churned h1 h2 h3 h4
        rw [hvt] at this
        injection this with this

theorem nodup_map_key_filterMap {α β : Type} [DecidableEq β] (l : List β)
    (f : β → Option α) (key : α → β) (hl : l.Nodup)
    (hkey : ∀ x y, f x = some y → key y = x) :
    ((l.filterMap f).map key).Nodup := by
  induction l with
  | nil => simp
  | cons x xs ih =>
    have hl' := List.nodup_cons.mp hl
    rw [List.filterMap_cons]
    cases hfx : f x with
    | none => exact ih hl'.2
    | some b =>
      rw [List.map_cons, List.nodup_cons]
      constructor
      · intro hmem
        rcases List.mem_map.mp hmem with ⟨y, hy, hky⟩
        rcases List.mem_filterMap.mp hy with ⟨a, ha, hfa⟩
        have hya : key y = a := hkey a y hfa
        have hax : a = x := by rw [← hya, hky, hkey x b hfx]
        exact hl'.1 (hax ▸ ha)
      · exact ih hl'.2

theorem nodup_append_pairs {γ δ : Type} {l1 l2 : List (γ × δ)}
    (h1 : l1.Nodup) (h2 : l2.Nodup)
    (hdisj : ∀ x ∈ l1, ∀ y ∈ l2, x.2 ≠ y.2) : (l1 ++ l2).Nodup := by
  rw [List.nodup_append]
  exact ⟨h1, h2, fun a ha hb => hdisj a ha a hb rfl⟩

theorem cws_clients_nodup (st : List StagedRow) :
    ((analyze_churned_without_signed st).map (fun r => r.client_id)).Nodup := by
  unfold analyze_churned_without_signed
  apply nodup_map_key_filterMap _ _ _ (nodup_dedupFirst _)
  intro x y hfx
  split at hfx
  · injection hfx with h; rw [← h]
  · cases hfx

theorem cws_type_const (st : List StagedRow) :
    ∀ r ∈ analyze_churned_without_signed st,
      r.inconsistency_type = "Q3_churned_without_signed" := by
  intro r hr
  rcases List.mem_filterMap.mp hr with ⟨a, -, hfa⟩
  split at hfa
  · injection hfa with h; rw [← h]
  · cases hfa

theorem liu_clients_nodup (now : Int) (st : List StagedRow) :
    ((analyze_long_inactive_unsigned now st).map (fun r => r.client_id)).Nodup := by
  unfold analyze_long_inactive_unsigned
  apply nodup_map_key_filterMap _ _ _ (nodup_dedupFirst _)
  intro x y hfx
  cases hl : lastEventDate st x with
  | none => rw [hl] at hfx; cases hfx
  | some last =>
    rw [hl] at hfx
    simp only at hfx
    split at hfx
    · injection hfx with h; rw [← h]
    · cases hfx

theorem liu_type_const (now : Int) (st : List StagedRow) :
    ∀ r ∈ analyze_long_inactive_unsigned now st,
      r.inconsistency_type = "Q6_long_inactive_unsigned" := by
  intro r hr
  rcases List.mem_filterMap.mp hr with ⟨a, -, hfa⟩
  cases hl : lastEventDate st a with
  | none => rw [hl] at hfa; cases hfa
  | some last =>
    rw [hl] at hfa
    simp only at hfa
    split at hfa
    · injection hfa with h; rw [← h]
    · cases hfa

theorem swa_clients_nodup (st : List StagedRow) :
    ((analyze_signed_without_applied st).map (fun r => r.client_id)).Nodup := by
  unfold analyze_signed_without_applied
  apply nodup_map_key_filterMap _ _ _ (nodup_dedupFirst _)
  intro x y hfx
  split at hfx
  · injection hfx with h; rw [← h]
  · cases hfx

theorem swa_type_const (st : List StagedRow) :
    ∀ r ∈ analyze_signed_without_applied st,
      r.inconsistency_type = "Q2_signed_without_applied" := by
  intro r hr
  rcases List.mem_filterMap.mp hr with ⟨a, -, hfa⟩
  split at hfa
  · injection hfa with h; rw [← h]
  · cases hfa

theorem multi_app_clients_nodup (st : List StagedRow) :
    ((analyze_multiple_applications st).map (fun r => r.client_id)).Nodup := by
  unfold analyze_multiple_applications
  apply nodup_map_key_filterMap _ _ _ (nodup_dedupFirst _)
  intro x y hfx
  split at hfx
  · injection hfx with h; rw [← h]
  · cases hfx

theorem multi_app_type_const (st : List StagedRow) :
    ∀ r ∈ analyze_multiple_applications st,
      r.inconsistency_type = "Q1_multiple_applications" := by
  intro r hr
  rcases List.mem_filterMap.mp hr with ⟨a, -, hfa⟩
  split at hfa
  · injection hfa with h; rw [← h]
  · cases hfa

theorem unknown_type_const (st : List StagedRow) :
    ∀ r ∈ analyze_unknown_values st, r.inconsistency_type = "unknown_values" := by
  intro r hr
  rcases List.mem_map.mp hr with ⟨a, -, rfl⟩
  rfl

theorem seq_clients_nodup (st : List StagedRow) :
    ((analyze_event_sequence_violations st).map (fun r => r.client_id)).Nodup := by
  unfold analyze_event_sequence_violations
  apply nodup_map_key_filterMap _ _ _ (nodup_dedupFirst _)
  intro x y hfx
  unfold seqRowFor at hfx
  cases hvt : violationType st x with
  | none => rw [hvt] at hfx; cases hfx
  | some vt =>
    rw [hvt] at hfx
    injection hfx with h
    rw [← h]

theorem seq_type_const (st : List StagedRow) :
    ∀ r ∈ analyze_event_sequence_violations st,
      r.inconsistency_type = "sequence_violation" := by
  intro r hr
  rcases List.mem_filterMap.mp hr with ⟨a, -, hfa⟩
  unfold seqRowFor at hfa
  cases hvt : violationType st a with
  | none => rw [hvt] at hfa; cases hfa
  | some vt =>
    rw [hvt] at hfa
    injection hfa with h
    rw [← h]

theorem docs_clients_nodup (st : List StagedRow) :
    ((analyze_docs_submitted_pattern st).map (fun r => r.client_id)).Nodup := by
  unfold analyze_docs_submitted_pattern
  apply nodup_map_key_filterMap _ _ _ (nodup_dedupFirst _)
  intro x y hfx
  split at hfx
  · injection hfx with h; rw [← h]
  · cases hfx

theorem docs_type_const (st : List StagedRow) :
    ∀ r ∈ analyze_docs_submitted_pattern st,
      r.inconsistency_type = "docs_submitted_analysis" := by
  intro r hr
  rcases List.mem_filterMap.mp hr with ⟨a, -, hfa⟩
  split at hfa
  · injection hfa with h; rw [← h]
  · cases hfa

theorem plan_clients_nodup (st : List StagedRow) :
    ((analyze_plan_inconsistencies st).map (fun r => r.client_id)).Nodup := by
  unfold analyze_plan_inconsistencies
  apply nodup_map_key_filterMap _ _ _ (nodup_dedupFirst _)
  intro x y hfx
  split at hfx
  · injection hfx with h; rw [← h]
  · cases hfx

theorem plan_type_const (st : List StagedRow) :
    ∀ r ∈ analyze_plan_inconsistencies st,
      r.inconsistency_type = "plan_inconsistency" := by
  intro r hr
  rcases List.mem_filterMap.mp hr with ⟨a, -, hfa⟩
  split at hfa
  · injection hfa with h; rw [← h]
  · cases hfa

theorem pairs_nodup_of_clients_nodup {ρ : Type} (l : List ρ)
    (client : ρ → Option Int) (ty : ρ → String)
    (h : (l.map client).Nodup) :
    (l.map (fun r => (client r, ty r))).Nodup := by
  apply (List.Nodup.of_map client h).map_on
  intro r1 h1 r2 h2 heq
  exact List.inj_on_of_nodup_map h h1 h2 (congrArg Prod.fst heq)

/-- The staging table of the C6 counterexample: client 1 has two staged rows
with a null `region`, so `analyze_unknown_values` emits two findings for the
same (`client_id`, `inconsistency_type`) pair. -/
def exStC6 : List StagedRow :=
  [{ record_id := some 1, client_id := some 1, event_type := "applied", event_date := 0,
     plan := some "Basic", region := none, marketing_channel := some "web",
     sales_rep_id := some 5, source_system := some "crm", event_rank := 1 },
   { record_id := some 2, client_id := some 1, event_type := "applied", event_date := 1,
     plan := some "Basic", region := none, marketing_channel := some "web",
     sales_rep_id := some 5, source_system := some "crm", event_rank := 2 }]

/-- **C6, counterexample.**  (`client_id`, `inconsistency_type`) is not a
primary key of the combined findings table: on `exStC6`,
`analyze_unknown_values` contributes one row per offending record, so two
rows share the pair `(1, "unknown_values")`. -/
theorem inconsistency_pair_key_counterexample :
    ¬ (((create_inconsistencies_summary 0 exStC6).map
        (fun fd => (fclient fd, ftype fd))).Nodup) := by
  decide

/-- **C6, amended.**  (`client_id`, `inconsistency_type`) is a primary key of
the combined findings table restricted to the rows not contributed by
`analyze_unknown_values` (each per-client rule-check emits at most one row
per client, and distinct checks carry distinct `inconsistency_type` tags);
`analyze_unknown_values` emits one row per offending record, so the pair is
not unique on its rows. -/
theorem inconsistency_pair_key_amended (now : Int) (st : List StagedRow) :
    (((create_inconsistencies_summary now st).filter
        (fun fd => decide (ftype fd ≠ "unknown_values"))).map
      (fun fd => (fclient fd, ftype fd))).Nodup := by
  have p1 : (((analyze_churned_without_signed st).map Finding.cws).map
      (fun fd => (fclient fd, ftype fd))).Nodup := by
    rw [List.map_map]
    exact pairs_nodup_of_clients_nodup (analyze_churned_without_signed st)
      (fun r => r.client_id) (fun r => r.inconsistency_type) (cws_clients_nodup st)
  have p2 : (((analyze_long_inactive_unsigned now st).map Finding.liu).map
      (fun fd => (fclient fd, ftype fd))).Nodup := by
    rw [List.map_map]
    exact pairs_nodup_of_clients_nodup (analyze_long_inactive_unsigned now st)
      (fun r => r.client_id) (fun r => r.inconsistency_type) (liu_clients_nodup now st)
  have p3 : (((analyze_signed_without_applied st).map Finding.swa).map
      (fun fd => (fclient fd, ftype fd))).Nodup := by
    rw [List.map_map]
    exact pairs_nodup_of_clients_nodup (analyze_signed_without_applied st)
      (fun r => r.client_id) (fun r => r.inconsistency_type) (swa_clients_nodup st)
  have p4 : (((analyze_multiple_applications st).map Finding.multiApp).map
      (fun fd => (fclient fd, ftype fd))).Nodup := by
    rw [List.map_map]
    exact pairs_nodup_of_clients_nodup (analyze_multiple_applications st)
      (fun r => r.client_id) (fun r => r.inconsistency_type) (multi_app_clients_nodup st)
  have p6 : (((analyze_event_sequence_violations st).map Finding.seqViol).map
      (fun fd => (fclient fd, ftype fd))).Nodup := by
    rw [List.map_map]
    exact pairs_nodup_of_clients_nodup (analyze_event_sequence_violations st)
      (fun r => r.client_id) (fun r => r.inconsistency_type) (seq_clients_nodup st)
  have p7 : (((analyze_docs_submitted_pattern st).map Finding.docsPattern).map
      (fun fd => (fclient fd, ftype fd))).Nodup := by
    rw [List.map_map]
    exact pairs_nodup_of_clients_nodup (analyze_docs_submitted_pattern st)
      (fun r => r.client_id) (fun r => r.inconsistency_type) (docs_clients_nodup st)
  have p8 : (((analyze_plan_inconsistencies st).map Finding.planInc).map
      (fun fd => (fclient fd, ftype fd))).Nodup := by
    rw [List.map_map]
    exact pairs_nodup_of_clients_nodup (analyze_plan_inconsistencies st)
      (fun r => r.client_id) (fun r => r.inconsistency_type) (plan_clients_nodup st)
  have s1 : ∀ x ∈ ((analyze_churned_without_signed st).map Finding.cws).map
      (fun fd => (fclient fd, ftype fd)), x.2 = "Q3_churned_without_signed" := by
    intro x hx
    rcases List.mem_map.mp hx with ⟨fd, hfd, rfl⟩
    rcases List.mem_map.mp hfd with ⟨r, hr, rfl⟩
    exact cws_type_const st r hr
  have s2 : ∀ x ∈ ((analyze_long_inactive_unsigned now st).map Finding.liu).map
      (fun fd => (fclient fd, ftype fd)), x.2 = "Q6_long_inactive_unsigned" := by
    intro x hx
    rcases List.mem_map.mp hx with ⟨fd, hfd, rfl⟩
    rcases List.mem_map.mp hfd with ⟨r, hr, rfl⟩
    exact liu_type_const now st r hr
  have s3 : ∀ x ∈ ((analyze_signed_without_applied st).map Finding.swa).map
      (fun fd => (fclient fd, ftype fd)), x.2 = "Q2_signed_without_applied" := by
    intro x hx
    rcases List.mem_map.mp hx with ⟨fd, hfd, rfl⟩
    rcases List.mem_map.mp hfd with ⟨r, hr, rfl⟩
    exact swa_type_const st r hr
  have s4 : ∀ x ∈ ((analyze_multiple_applications st).map Finding.multiApp).map
      (fun fd => (fclient fd, ftype fd)), x.2 = "Q1_multiple_applications" := by
    intro x hx
    rcases List.mem_map.mp hx with ⟨fd, hfd, rfl⟩
    rcases List.mem_map.mp hfd with ⟨r, hr, rfl⟩
    exact multi_app_type_const st r hr
  have s6 : ∀ x ∈ ((analyze_event_sequence_violations st).map Finding.seqViol).map
      (fun fd => (fclient fd, ftype fd)), x.2 = "sequence_violation" := by
    intro x hx
    rcases List.mem_map.mp hx with ⟨fd, hfd, rfl⟩
    rcases List.mem_map.mp hfd with ⟨r, hr, rfl⟩
    exact seq_type_const st r hr
  have s7 : ∀ x ∈ ((analyze_docs_submitted_pattern st).map Finding.docsPattern).map
      (fun fd => (fclient fd, ftype fd)), x.2 = "docs_submitted_analysis" := by
    intro x hx
    rcases List.mem_map.mp hx with ⟨fd, hfd, rfl⟩
    rcases List.mem_map.mp hfd with ⟨r, hr, rfl⟩
    exact docs_type_const st r hr
  have s8 : ∀ x ∈ ((analyze_plan_inconsistencies st).map Finding.planInc).map
      (fun fd => (fclient fd, ftype fd)), x.2 = "plan_inconsistency" := by
    intro x hx
    rcases List.mem_map.mp hx with ⟨fd, hfd, rfl⟩
    rcases List.mem_map.mp hfd with ⟨r, hr, rfl⟩
    exact plan_type_const st r hr
  have f1 : ((analyze_churned_without_signed st).map Finding.cws).filter
      (fun fd => decide (ftype fd ≠ "unknown_values"))
      = (analyze_churned_without_signed st).map Finding.cws := by
    rw [List.filter_eq_self]
    intro fd hfd
    rcases List.mem_map.mp hfd with ⟨r, hr, rfl⟩
    simp [ftype, cws_type_const st r hr]
  have f2 : ((analyze_long_inactive_unsigned now st).map Finding.liu).filter
      (fun fd => decide (ftype fd ≠ "unknown_values"))
      = (analyze_long_inactive_unsigned now st).map Finding.liu := by
    rw [List.filter_eq_self]
    intro fd hfd
    rcases List.mem_map.mp hfd with ⟨r, hr, rfl⟩
    simp [ftype, liu_type_const now st r hr]
  have f3 : ((analyze_signed_without_applied st).map Finding.swa).filter
      (fun fd => decide (ftype fd ≠ "unknown_values"))
      = (analyze_signed_without_applied st).map Finding.swa := by
    rw [List.filter_eq_self]
    intro fd hfd
    rcases List.mem_map.mp hfd with ⟨r, hr, rfl⟩
    simp [ftype, swa_type_const st r hr]
  have f4 : ((analyze_multiple_applications st).map Finding.multiApp).filter
      (fun fd => decide (ftype fd ≠ "unknown_values"))
      = (analyze_multiple_applications st).map Finding.multiApp := by
    rw [List.filter_eq_self]
    intro fd hfd
    rcases List.mem_map.mp hfd with ⟨r, hr, rfl⟩
    simp [ftype, multi_app_type_const st r hr]
  have f5 : ((analyze_unknown_values st).map Finding.unknownVals).filter
      (fun fd => decide (ftype fd ≠ "unknown_values")) = [] := by
    rw [List.filter_eq_nil_iff]
    intro fd hfd
    rcases List.mem_map.mp hfd with ⟨r, hr, rfl⟩
    simp [ftype, unknown_type_const st r hr]
  have f6 : ((analyze_event_sequence_violations st).map Finding.seqViol).filter
      (fun fd => decide (ftype fd ≠ "unknown_values"))
      = (analyze_event_sequence_violations st).map Finding.seqViol := by
    rw [List.filter_eq_self]
    intro fd hfd
    rcases List.mem_map.mp hfd with ⟨r, hr, rfl⟩
    simp [ftype, seq_type_const st r hr]
  have f7 : ((analyze_docs_submitted_pattern st).map Finding.docsPattern).filter
      (fun fd => decide (ftype fd ≠ "unknown_values"))
      = (analyze_docs_submitted_pattern st).map Finding.docsPattern := by
    rw [List.filter_eq_self]
    intro fd hfd
    rcases List.mem_map.mp hfd with ⟨r, hr, rfl⟩
    simp [ftype, docs_type_const st r hr]
  have f8 : ((analyze_plan_inconsistencies st).map Finding.planInc).filter
      (fun fd => decide (ftype fd ≠ "unknown_values"))
      = (analyze_plan_inconsistencies st).map Finding.planInc := by
    rw [List.filter_eq_self]
    intro fd hfd
    rcases List.mem_map.mp hfd with ⟨r, hr, rfl⟩
    simp [ftype, plan_type_const st r hr]
  unfold create_inconsistencies_summary
  simp only [List.filter_append]
  rw [f1, f2, f3, f4, f5, f6, f7, f8]
  simp only [List.map_append, List.map_nil, List.append_nil, List.nil_append]
  refine nodup_append_pairs (nodup_append_pairs (nodup_append_pairs
    (nodup_append_pairs (nodup_append_pairs (nodup_append_pairs p1 p2 ?_)
      p3 ?_) p4 ?_) p6 ?_) p7 ?_) p8 ?_
  · intro x hx y hy
    rw [s1 x hx, s2 y hy]
    decide
  · intro x hx y hy
    simp only [List.mem_append] at hx
    rw [s3 y hy]
    rcases hx with hx | hx
    · rw [s1 x hx]; decide
    · rw [s2 x hx]; decide
  · intro x hx y hy
    simp only [List.mem_append] at hx
    rw [s4 y hy]
    rcases hx with (hx | hx) | hx
    · rw [s1 x hx]; decide
    · rw [s2 x hx]; decide
    · rw [s3 x hx]; decide
  · intro x hx y hy
    simp only [List.mem_append] at hx
    rw [s6 y hy]
    rcases hx with ((hx | hx) | hx) | hx
    · rw [s1 x hx]; decide
    · rw [s2 x hx]; decide
    · rw [s3 x hx]; decide
    · rw [s4 x hx]; decide
  · intro x hx y hy
    simp only [List.mem_append] at hx
    rw [s7 y hy]
    rcases hx with (((hx | hx) | hx) | hx) | hx
    · rw [s1 x hx]; decide
    · rw [s2 x hx]; decide
    · rw [s3 x hx]; decide
    · rw [s4 x hx]; decide
    · rw [s6 x hx]; decide
  · intro x hx y hy
    simp only [List.mem_append] at hx
    rw [s8 y hy]
    rcases hx with ((((hx | hx) | hx) | hx) | hx) | hx
    · rw [s1 x hx]; decide
    · rw [s2 x hx]; decide
    · rw [s3 x hx]; decide
    · rw [s4 x hx]; decide
    · rw [s6 x hx]; decide
    · rw [s7 x hx]; decide

/-- **C7, counterexample.**  On the empty staging table every rule-check
finds zero rows, so `create_inconsistencies_summary` takes its
`pd.DataFrame()` branch: the combined findings table carries no columns at
all, not the full expected column set. -/
theorem empty_input_schema_counterexample :
    summary_columns 0 ([] : List StagedRow) = [] ∧
    summary_expected_columns ≠ [] := by
  constructor
  · rfl
  · decide

/-- **C7, amended.**  On an empty staging table every aggregator and
rule-check returns an empty table without raising (each individual result
keeps its fixed column set, which in this embedding is carried by the row
types and per-check column constants) — except that the combined findings
table of `create_inconsistencies_summary` is returned as a completely empty
DataFrame whose column set is empty rather than the expected union. -/
theorem empty_input_well_formed (now : Int) :
    create_funnel_analysis [] = [] ∧
    create_churn_analysis now [] = [] ∧
    analyze_churned_without_signed [] = [] ∧
    analyze_long_inactive_unsigned now [] = [] ∧
    analyze_signed_without_applied [] = [] ∧
    analyze_multiple_applications [] = [] ∧
    analyze_unknown_values [] = [] ∧
    analyze_event_sequence_violations [] = [] ∧
    analyze_docs_submitted_pattern [] = [] ∧
    analyze_plan_inconsistencies [] = [] ∧
    analyze_event_type_distribution [] = [] ∧
    create_inconsistencies_summary now [] = [] ∧
    summary_columns now [] = [] :=
  ⟨rfl, rfl, rfl, rfl, rfl, rfl, rfl, rfl, rfl, rfl, rfl, rfl, rfl⟩

/-- The non-rank fields of a staged row are exactly those of raw row `a`
(with `a`'s non-null date). -/
def fieldsFrom (a : RawRow) (r : StagedRow) : Prop :=
  r.record_id = a.record_id ∧ r.client_id = a.client_id ∧
  r.event_type = a.event_type ∧ some r.event_date = a.event_date ∧
  r.plan = a.plan ∧ r.region = a.region ∧
  r.marketing_channel = a.marketing_channel ∧
  r.sales_rep_id = a.sales_rep_id ∧ r.source_system = a.source_system

instance (a : RawRow) (r : StagedRow) : Decidable (fieldsFrom a r) := by
  unfold fieldsFrom; infer_instance

/-- The flag-relevant fields of an `unknown_values` finding are exactly those
of raw row `a`. -/
def uFrom (a : RawRow) (u : UnknownRow) : Prop :=
  u.plan = a.plan ∧ u.region = a.region ∧
  u.marketing_channel = a.marketing_channel ∧
  u.sales_rep_id = a.sales_rep_id ∧ u.source_system = a.source_system

instance (a : RawRow) (u : UnknownRow) : Decidable (uFrom a u) := by
  unfold uFrom; infer_instance

/-- Every row of the staging table carries the fields of some input row. -/
theorem staged_fields_from (rows : List RawRow) :
    ∀ r ∈ create_staging_table rows, ∃ a ∈ rows, fieldsFrom a r := by
  intro r hr
  unfold create_staging_table at hr
  rcases List.mem_map.mp hr with ⟨p, hp, rfl⟩
  rw [List.mem_range] at hp
  have hmem : (keepDated rows).getD p default ∈ keepDated rows := by
    rw [List.getD_eq_getElem _ _ hp]
    exact List.getElem_mem hp
  rcases List.mem_filterMap.mp hmem with ⟨a, ha, hfa⟩
  cases hd : a.event_date with
  | none => rw [hd] at hfa; cases hfa
  | some d =>
    rw [hd] at hfa
    injection hfa with hfa
    refine ⟨a, ha, ?_⟩
    unfold stagedOf fieldsFrom
    rw [← hfa, hd]
    exact ⟨rfl, rfl, rfl, rfl, rfl, rfl, rfl, rfl, rfl⟩

/-- **C10.**  A raw input row whose `marketing_channel` or `source_system` is
missing but whose other fields are well-formed is normalized to carry the
lowercase string `'unknown'` in the missing column(s), and the
`unknown_values` check never flags a staged row carrying the normalized
values of such a raw row: the end-to-end pipeline produces no
`unknown_values` finding for that row. -/
theorem normalized_channels_not_flagged (rows : List RawRow) (raw : RawRow)
    (hmiss : raw.marketing_channel = none ∨ raw.source_system = none)
    (hplan : ∃ p, raw.plan = some p ∧ titleCase p ≠ "Unknown")
    (hrep : ∃ v, raw.sales_rep_id = some v ∧ v ≠ -1)
    (hreg : ∃ g, raw.region = some g ∧ g ≠ "")
    (hmc : raw.marketing_channel = none ∨
      ∃ m, raw.marketing_channel = some m ∧ m ≠ "")
    (hss : raw.source_system = none ∨
      ∃ s, raw.source_system = some s ∧ s ≠ "") :
    ((raw.marketing_channel = none →
        (fill_missing_values raw).marketing_channel = some "unknown") ∧
     (raw.source_system = none →
        (fill_missing_values raw).source_system = some "unknown")) ∧
    (∀ r : StagedRow, fieldsFrom (fill_missing_values raw) r →
      ¬ unknown_flag r) ∧
    (∀ u ∈ analyze_unknown_values
        (create_staging_table (rows.map fill_missing_values)),
      ¬ uFrom (fill_missing_values raw) u) := by
  have hnoflag : ∀ r : StagedRow,
      r.plan = (fill_missing_values raw).plan →
      r.region = (fill_missing_values raw).region →
      r.marketing_channel = (fill_missing_values raw).marketing_channel →
      r.sales_rep_id = (fill_missing_values raw).sales_rep_id →
      r.source_system = (fill_missing_values raw).source_system →
      ¬ unknown_flag r := by
    intro r hpl hrg hm hsr hsy hflag
    rcases hplan with ⟨p, hp, hpU⟩
    rcases hrep with ⟨v, hv, hvne⟩
    rcases hreg with ⟨g, hg, hgne⟩
    unfold fill_missing_values at hpl hrg hm hsr hsy
    simp only at hpl hrg hm hsr hsy
    rw [hp] at hpl
    rw [hv] at hsr
    rw [hg] at hrg
    rcases hflag with h | h | h | h | h
    · rw [hpl] at h
      injection h with h
      exact hpU h
    · rw [hsr] at h
      injection h with h
      exact hvne h
    · rw [hrg] at h
      rcases h with h | h
      · cases h
      · injection h with h
        exact hgne h
    · rcases hmc with hm0 | ⟨m, hm1, hmne⟩
      · rw [hm0] at hm
        rw [hm] at h
        rcases h with h | h
        · cases h
        · injection h with h
          exact (by decide : ("unknown" : String) ≠ "") h
      · rw [hm1] at hm
        rw [hm] at h
        rcases h with h | h
        · cases h
        · injection h with h
          exact hmne h
    · rcases hss with hs0 | ⟨sv, hs1, hsne⟩
      · rw [hs0] at hsy
        rw [hsy] at h
        rcases h with h | h
        · cases h
        · injection h with h
          exact (by decide : ("unknown" : String) ≠ "") h
      · rw [hs1] at hsy
        rw [hsy] at h
        rcases h with h | h
        · cases h
        · injection h with h
          exact hsne h
  refine ⟨⟨?_, ?_⟩, ?_, ?_⟩
  · intro h
    unfold fill_missing_values
    simp only
    rw [h]
    rfl
  · intro h
    unfold fill_missing_values
    simp only
    rw [h]
    rfl
  · intro r hf
    exact hnoflag r hf.2.2.2.2.1 hf.2.2.2.2.2.1 hf.2.2.2.2.2.2.1
      hf.2.2.2.2.2.2.2.1 hf.2.2.2.2.2.2.2.2
  · intro u hu huf
    unfold analyze_unknown_values at hu
    rcases List.mem_map.mp hu with ⟨r, hr, rfl⟩
    have hflag : unknown_flag r :=
      of_decide_eq_true (List.mem_filter.mp hr).2
    rcases huf with ⟨h1, h2, h3, h4, h5⟩
    exact hnoflag r h1 h2 h3 h4 h5 hflag

/-- A one-row staging table satisfying the ranker's invariant (C2 witness). -/
def exStC2 : List StagedRow :=
  [{ record_id := some 1, client_id := some 1, event_type := "applied", event_date := 5,
     plan := some "Basic", region := some "eu", marketing_channel := some "web",
     sales_rep_id := some 7, source_system := some "crm", event_rank := 1 }]

theorem funnel_rank1_filter_redundant_witness :
    RankerInv exStC2 ∧
    ∃ fr ∈ create_funnel_analysis exStC2, fr.client_id = some 1 := by
  refine ⟨by decide, ?_⟩
  exact (funnel_rank1_filter_redundant exStC2 (by decide)).1
    { record_id := some 1, client_id := some 1, event_type := "applied", event_date := 5,
      plan := some "Basic", region := some "eu", marketing_channel := some "web",
      sales_rep_id := some 7, source_system := some "crm", event_rank := 1 }
    (by decide)

theorem funnel_rates_guarded_witness :
    (analyze_funnel_metrics exFunnelC3).docs_submitted_clients ≤
      (analyze_funnel_metrics exFunnelC3).applied_clients ∧
    (analyze_funnel_metrics exFunnelC3).docs_submission_rate ≤ 1 :=
  ⟨by decide, (funnel_rates_guarded exFunnelC3).2.2.2.2.2.1 (by decide)⟩

theorem churn_rows_per_client_witness :
    ((create_churn_analysis 100 exStC4).filter
        (fun r => decide (r.client_id = some 1))).length = 2 := by
  obtain ⟨last, hlast, hlen, -⟩ := churn_rows_per_client 100 exStC4 (some 1) (by decide)
  have h0 : lastEventDate exStC4 (some 1) = some 0 := by decide
  rw [h0] at hlast
  injection hlast with h
  rw [hlen, ← h]
  decide

/-- A staging table with one churned-but-never-signed client (C5 witness). -/
def exStC5 : List StagedRow :=
  [{ record_id := some 1, client_id := some 3, event_type := "churned", event_date := 10,
     plan := some "Basic", region := some "eu", marketing_channel := some "web",
     sales_rep_id := some 7, source_system := some "crm", event_rank := 1 }]

theorem churned_without_signed_witness :
    ∃ row ∈ analyze_churned_without_signed exStC5,
      row.client_id = some 3 ∧ row.signed_count = 0 ∧ 1 ≤ row.churned_count :=
  (churned_without_signed_complete exStC5 (some 3) (by decide)).1
    ⟨by decide, by decide⟩

/-- A staging table where client 1002 applied on 2024-01-01 (epoch day 19723)
and again on 2024-02-15 (epoch day 19768), 45 days later (C8 witness). -/
def exStC8 : List StagedRow :=
  [{ record_id := some 1, client_id := some 1002, event_type := "applied",
     event_date := 19723, plan := some "Basic", region := some "eu",
     marketing_channel := some "web", sales_rep_id := some 7,
     source_system := some "crm", event_rank := 1 },
   { record_id := some 2, client_id := some 1002, event_type := "applied",
     event_date := 19768, plan := some "Basic", region := some "eu",
     marketing_channel := some "web", sales_rep_id := some 7,
     source_system := some "crm", event_rank := 2 }]

theorem multiple_applications_witness :
    ∃ row ∈ analyze_multiple_applications exStC8,
      row.client_id = some 1002 ∧ row.application_count = 2 ∧
      row.date_range_days = 45 := by
  obtain ⟨row, hrow, hrc⟩ :=
    ((multiple_applications_characterization exStC8 (some 1002) (by decide)
      (by decide)).2.1).mpr (by decide)
  have h := (multiple_applications_characterization exStC8 (some 1002)
    (by decide) (by decide)).2.2 row hrow hrc
  refine ⟨row, hrow, hrc, ?_, ?_⟩
  · rw [h.1]; decide
  · have h2 := h.2 19723 19768 (by decide) (by decide)
    rw [h2]
    decide

/-- A staging table where client 1 satisfies both the `signed_before_applied`
and the `docs_submitted_before_applied` conditions (C9 witness). -/
def exStC9 : List StagedRow :=
  [{ record_id := some 1, client_id := some 1, event_type := "signed", event_date := 1,
     plan := some "Basic", region := some "eu", marketing_channel := some "web",
     sales_rep_id := some 7, source_system := some "crm", event_rank := 1 },
   { record_id := some 2, client_id := some 1, event_type := "docs_submitted",
     event_date := 2, plan := some "Basic", region := some "eu",
     marketing_channel := some "web", sales_rep_id := some 7,
     source_system := some "crm", event_rank := 1 },
   { record_id := some 3, client_id := some 1, event_type := "applied", event_date := 5,
     plan := some "Basic", region := some "eu", marketing_channel := some "web",
     sales_rep_id := some 7, source_system := some "crm", event_rank := 1 }]

theorem sequence_violation_priority_witness :
    ∀ row ∈ analyze_event_sequence_violations exStC9, row.client_id = some 1 →
      row.violation_type = "signed_before_applied" := by
  intro row hrow hrc
  exact ((sequence_violation_priority exStC9 (some 1)).2 row hrow hrc).1
    ⟨1, 5, by decide, by decide, by decide⟩

/-- A raw row with a missing `marketing_channel` and otherwise well-formed
fields (C10 witness). -/
def exRawC10 : RawRow :=
  { record_id := some 1, client_id := some 1, event_type := "applied",
    event_date := some 5, plan := some "basic", region := some "eu",
    marketing_channel := none, sales_rep_id := some 7,
    source_system := some "crm" }

theorem normalized_channels_witness :
    (fill_missing_values exRawC10).marketing_channel = some "unknown" :=
  (normalized_channels_not_flagged [exRawC10] exRawC10 (Or.inl rfl)
    ⟨"basic", rfl, by decide⟩ ⟨7, rfl, by decide⟩ ⟨"eu", rfl, by decide⟩
    (Or.inl rfl) (Or.inr ⟨"crm", rfl, by decide⟩)).1.1 rfl
